import Mathlib

/-!
Shallow embedding of `frescobaldi_app/file_export/create_musicxml.py`.

The Python class `create_musicXML` builds an lxml element tree.  lxml
elements are mutable nodes referenced from several cursors
(`self.current_part`, `self.current_bar`, `self.current_note`,
`self.duration`, `self.bar_attr`, `self.current_notation`), so the tree is
embedded as an arena: a list of nodes, where a node stores its tag, its
attributes, its optional text and the list of its children's indices, and
every cursor is an index into the arena.  `etree.SubElement(parent, tag)`
appends a fresh node and registers it as the last child of `parent`;
setting `.text` mutates the node in place.

Python attributes that are only assigned by some methods
(`current_part`, `bar_nr`, ...) are `Option` fields, `none` until first
assignment; reading an unset one raises `AttributeError`, embedded as
`PyError.attributeError`.  The file is Python 2 (it has
`from __future__ import unicode_literals` and no `division` import), so
`/` on ints is floor division and division by zero raises
`ZeroDivisionError`, embedded as `PyError.zeroDivisionError`; all the
quantities divided here are non-negative, so they are modelled as `Nat`
(Nat division is the same floor division on this domain).
-/

/-- An lxml element: tag, attribute list (in insertion order), optional
text, and the arena indices of its children in document order. -/
structure Node where
  tag : String
  attrs : List (String × String)
  text : Option String
  children : List Nat
deriving DecidableEq

/-- The arena holding every element ever created; an element's id is its
index in this list. -/
abbrev Doc := List Node

/-- Replace the element at index `i` by `f` of it (identity out of range). -/
def listModify {α : Type} : List α → Nat → (α → α) → List α
  | [], _, _ => []
  | a :: l, 0, f => f a :: l
  | a :: l, n + 1, f => a :: listModify l n f

/-- Allocate a fresh element with no text and no children; returns the new
arena and the fresh id (the old arena size). -/
def newElement (d : Doc) (tag : String) (attrs : List (String × String)) : Doc × Nat :=
  (d ++ [⟨tag, attrs, none, []⟩], d.length)

/-- Register `child` as the last child of `parent`. -/
def appendChild (d : Doc) (parent child : Nat) : Doc :=
  listModify d parent (fun nd => { nd with children := nd.children ++ [child] })

/-- `etree.SubElement(parent, tag, **attrs)`: allocate a fresh element and
append it to `parent`'s children. -/
def subElement (d : Doc) (parent : Nat) (tag : String) (attrs : List (String × String)) :
    Doc × Nat :=
  (appendChild (d ++ [⟨tag, attrs, none, []⟩]) parent d.length, d.length)

/-- `element.text = s`. -/
def setText (d : Doc) (i : Nat) (s : String) : Doc :=
  listModify d i (fun nd => { nd with text := some s })

/-- The tag of the element at `i`. -/
def tagOf (d : Doc) (i : Nat) : Option String := (d[i]?).map Node.tag

/-- The text of the element at `i` (`some none` = element exists, text unset). -/
def textOf (d : Doc) (i : Nat) : Option (Option String) := (d[i]?).map Node.text

/-- The children ids of the element at `i`. -/
def childrenOf (d : Doc) (i : Nat) : Option (List Nat) := (d[i]?).map Node.children

/-- The value of attribute `key` on the element at `i`. -/
def attrOf (d : Doc) (i : Nat) (key : String) : Option String :=
  (d[i]?).bind fun nd => (nd.attrs.find? (fun kv => kv.1 = key)).map Prod.snd

/-- The Python exceptions the builder can raise. -/
inductive PyError where
  | attributeError : String → PyError
  | zeroDivisionError : PyError
deriving DecidableEq

/-- The state of one `create_musicXML` instance: the arena plus the ids the
Python object keeps in instance attributes.  Attributes first assigned
outside `__init__` are `Option`, `none` while unset. -/
structure create_musicXML where
  doc : Doc
  root : Nat
  partlist : Nat
  part_count : Nat
  current_part : Option Nat := none
  bar_nr : Option Nat := none
  current_bar : Option Nat := none
  current_note : Option Nat := none
  duration : Option Nat := none
  bar_attr : Option Nat := none
  current_notation : Option Nat := none
deriving DecidableEq

namespace create_musicXML

/-- Read a Python instance attribute that may be unset: `AttributeError`
when it is. -/
def getAttr (o : Option Nat) (name : String) : Except PyError Nat :=
  match o with
  | none => .error (.attributeError name)
  | some i => .ok i

/-- `__init__`: root `score-partwise` (version 3.0), `identification /
encoding / software` ("Frescobaldi") and `encoding-date` (the source
rebinds the local variable instead of setting `.text`, so the element
keeps no text), then an empty `part-list`; `part_count` starts at 1. -/
def init : create_musicXML :=
  let p0 := newElement [] "score-partwise" [("version", "3.0")]
  let p1 := subElement p0.1 p0.2 "identification" []
  let p2 := subElement p1.1 p1.2 "encoding" []
  let p3 := subElement p2.1 p2.2 "software" []
  let d4 := setText p3.1 p3.2 "Frescobaldi"
  let p5 := subElement d4 p2.2 "encoding-date" []
  let p6 := subElement p5.1 p0.2 "part-list" []
  { doc := p6.1, root := p0.2, partlist := p6.2, part_count := 1 }

/-- `create_part(name)`: append a `score-part` (id "P"+part_count) with a
`part-name` child to the part-list, append an empty `part` element with
the same id to the root, make it the current part, bump `part_count`,
reset `bar_nr` to 1. -/
def create_part (s : create_musicXML) (name : String) : create_musicXML :=
  let pid := "P" ++ toString s.part_count
  let p1 := subElement s.doc s.partlist "score-part" [("id", pid)]
  let p2 := subElement p1.1 p1.2 "part-name" []
  let d3 := setText p2.1 p2.2 name
  let p4 := subElement d3 s.root "part" [("id", pid)]
  { s with doc := p4.1, current_part := some p4.2,
           part_count := s.part_count + 1, bar_nr := some 1 }

/-- `create_measure()`: append a `measure` numbered `bar_nr` to the current
part, make it the current bar, bump `bar_nr`. -/
def create_measure (s : create_musicXML) : Except PyError create_musicXML := do
  let cp ← getAttr s.current_part "current_part"
  let nr ← getAttr s.bar_nr "bar_nr"
  let p := subElement s.doc cp "measure" [("number", toString nr)]
  pure { s with doc := p.1, current_bar := some p.2, bar_nr := some (nr + 1) }

/-- `create_note()`: append a `note` element to the current bar. -/
def create_note (s : create_musicXML) : Except PyError create_musicXML := do
  let cb ← getAttr s.current_bar "current_bar"
  let p := subElement s.doc cb "note" []
  pure { s with doc := p.1, current_note := some p.2 }

/-- `add_pitch(step, alter, octave)`: a `pitch` child of the current note
with `step`, an `alter` child only when `alter` is truthy (non-zero),
and `octave`. -/
def add_pitch (s : create_musicXML) (step : String) (alter : Int) (octave : Int) :
    Except PyError create_musicXML := do
  let cn ← getAttr s.current_note "current_note"
  let p := subElement s.doc cn "pitch" []
  let q := subElement p.1 p.2 "step" []
  let d1 := setText q.1 q.2 step
  let d2 :=
    if alter ≠ 0 then
      let r := subElement d1 p.2 "alter" []
      setText r.1 r.2 (toString alter)
    else d1
  let o := subElement d2 p.2 "octave" []
  pure { s with doc := setText o.1 o.2 (toString octave) }

/-- `add_accidental(alter)`: an `accidental` child of the current note with
text "sharp" when `alter > 0`, else "flat". -/
def add_accidental (s : create_musicXML) (alter : Int) : Except PyError create_musicXML := do
  let cn ← getAttr s.current_note "current_note"
  let p := subElement s.doc cn "accidental" []
  pure { s with doc := setText p.1 p.2 (if alter > 0 then "sharp" else "flat") }

/-- `add_div_duration(divdur)`: a `duration` child of the current note; the
id is kept in `self.duration` so a tuplet can mutate the text later. -/
def add_div_duration (s : create_musicXML) (divdur : Nat) : Except PyError create_musicXML := do
  let cn ← getAttr s.current_note "current_note"
  let p := subElement s.doc cn "duration" []
  pure { s with doc := setText p.1 p.2 (toString divdur), duration := some p.2 }

/-- `change_div_duration(newdura)`: overwrite the text of the element
`self.duration` points to. -/
def change_div_duration (s : create_musicXML) (newdura : Nat) :
    Except PyError create_musicXML := do
  let du ← getAttr s.duration "duration"
  pure { s with doc := setText s.doc du (toString newdura) }

/-- `add_duration_type(durtype)`: a `type` child of the current note. -/
def add_duration_type (s : create_musicXML) (durtype : String) :
    Except PyError create_musicXML := do
  let cn ← getAttr s.current_note "current_note"
  let p := subElement s.doc cn "type" []
  pure { s with doc := setText p.1 p.2 durtype }

/-- `add_notations()`: a `notations` child of the current note; source
keeps the id in `self.current_notation`. -/
def add_notations (s : create_musicXML) : Except PyError create_musicXML := do
  let cn ← getAttr s.current_note "current_note"
  let p := subElement s.doc cn "notations" []
  pure { s with doc := p.1, current_notation := some p.2 }

/-- `add_time_modify(fraction)`: a `time-modification` child of the current
note with `actual-notes` = fraction[0] and `normal-notes` = fraction[1]
(the source assigns the fraction components to `.text` directly; the
callers pass numeric strings, modelled as `Nat` rendered by `toString`). -/
def add_time_modify (s : create_musicXML) (fraction : Nat × Nat) :
    Except PyError create_musicXML := do
  let cn ← getAttr s.current_note "current_note"
  let p := subElement s.doc cn "time-modification" []
  let a := subElement p.1 p.2 "actual-notes" []
  let d1 := setText a.1 a.2 (toString fraction.1)
  let b := subElement d1 p.2 "normal-notes" []
  pure { s with doc := setText b.1 b.2 (toString fraction.2) }

/-- `add_tuplet_type(ttype)`: a `tuplet` child (attribute `type=ttype`) of
the current notations element. -/
def add_tuplet_type (s : create_musicXML) (ttype : String) : Except PyError create_musicXML := do
  let no ← getAttr s.current_notation "current_notation"
  let p := subElement s.doc no "tuplet" [("type", ttype)]
  pure { s with doc := p.1 }

/-- `create_bar_attr()`: an `attributes` child of the current bar, kept in
`self.bar_attr`. -/
def create_bar_attr (s : create_musicXML) : Except PyError create_musicXML := do
  let cb ← getAttr s.current_bar "current_bar"
  let p := subElement s.doc cb "attributes" []
  pure { s with doc := p.1, bar_attr := some p.2 }

/-- `add_divisions(div)`: a `divisions` child of the attributes element. -/
def add_divisions (s : create_musicXML) (div : Nat) : Except PyError create_musicXML := do
  let ba ← getAttr s.bar_attr "bar_attr"
  let p := subElement s.doc ba "divisions" []
  pure { s with doc := setText p.1 p.2 (toString div) }

/-- `add_key(key, mode)`: a `key` child with `fifths` and `mode`. -/
def add_key (s : create_musicXML) (key : Int) (mode : String) :
    Except PyError create_musicXML := do
  let ba ← getAttr s.bar_attr "bar_attr"
  let p := subElement s.doc ba "key" []
  let f := subElement p.1 p.2 "fifths" []
  let d1 := setText f.1 f.2 (toString key)
  let m := subElement d1 p.2 "mode" []
  pure { s with doc := setText m.1 m.2 mode }

/-- `add_time(beats, beat_type)`: a `time` child with `beats` and
`beat-type`. -/
def add_time (s : create_musicXML) (beats beat_type : Nat) :
    Except PyError create_musicXML := do
  let ba ← getAttr s.bar_attr "bar_attr"
  let p := subElement s.doc ba "time" []
  let bn := subElement p.1 p.2 "beats" []
  let d1 := setText bn.1 bn.2 (toString beats)
  let tn := subElement d1 p.2 "beat-type" []
  pure { s with doc := setText tn.1 tn.2 (toString beat_type) }

/-- `add_clef(sign, line)`: a `clef` child with `sign` and `line`. -/
def add_clef (s : create_musicXML) (sign : String) (line : Nat) :
    Except PyError create_musicXML := do
  let ba ← getAttr s.bar_attr "bar_attr"
  let p := subElement s.doc ba "clef" []
  let sn := subElement p.1 p.2 "sign" []
  let d1 := setText sn.1 sn.2 sign
  let ln := subElement d1 p.2 "line" []
  pure { s with doc := setText ln.1 ln.2 (toString line) }

/-- `new_note(pitch, org_len, durtype, divs)`: create the note, its pitch,
`duration = divs*4/org_len` (Python 2 floor division on ints;
`ZeroDivisionError` when `org_len` is 0), the duration type, and an
accidental when the alteration is truthy (non-zero). -/
def new_note (s : create_musicXML) (pitch : String × Int × Int) (org_len : Nat)
    (durtype : String) (divs : Nat) : Except PyError create_musicXML := do
  let s1 ← create_note s
  let s2 ← add_pitch s1 pitch.1 pitch.2.1 pitch.2.2
  if org_len = 0 then .error .zeroDivisionError else
  let duration := divs * 4 / org_len
  let s3 ← add_div_duration s2 duration
  let s4 ← add_duration_type s3 durtype
  if pitch.2.1 ≠ 0 then add_accidental s4 pitch.2.1 else pure s4

/-- `tuplet_note(fraction, org_len, ttype, divs)`: recompute the duration as
`divs*4*fraction[1] / (org_len*fraction[0])` (floor division;
`ZeroDivisionError` when the denominator is 0), overwrite the stored
duration text, append the time modification, and when `ttype` is truthy
(a non-empty string) the notations/tuplet pair. -/
def tuplet_note (s : create_musicXML) (fraction : Nat × Nat) (org_len : Nat)
    (ttype : Option String) (divs : Nat) : Except PyError create_musicXML := do
  let a := divs * 4 * fraction.2
  let b := org_len * fraction.1
  if b = 0 then .error .zeroDivisionError else
  let duration := a / b
  let s1 ← change_div_duration s duration
  let s2 ← add_time_modify s1 fraction
  match ttype with
  | some t =>
      if t = "" then pure s2 else do
        let s3 ← add_notations s2
        add_tuplet_type s3 t
  | none => pure s2

/-- `new_bar_attr(clef, mustime, key, mode, divs)`: the attributes element,
then `divisions` when `divs` is truthy (non-zero), `key` when `key >= 0`,
`time` when `mustime` is truthy, `clef` when `clef` is truthy — in that
fixed order. -/
def new_bar_attr (s : create_musicXML) (clef : Option (String × Nat))
    (mustime : Option (Nat × Nat)) (key : Int) (mode : String) (divs : Nat) :
    Except PyError create_musicXML := do
  let s1 ← create_bar_attr s
  let s2 ← if divs ≠ 0 then add_divisions s1 divs else pure s1
  let s3 ← if key ≥ 0 then add_key s2 key mode else pure s2
  let s4 ← match mustime with
           | some mt => add_time s3 mt.1 mt.2
           | none => pure s3
  match clef with
  | some c => add_clef s4 c.1 c.2
  | none => pure s4

/-- Escape the characters lxml escapes in text content. -/
def escText (s : String) : String :=
  String.join (s.data.map (fun c =>
    if c = '&' then "&amp;" else if c = '<' then "&lt;"
    else if c = '>' then "&gt;" else String.singleton c))

/-- Escape the characters lxml escapes in attribute values. -/
def escAttrVal (s : String) : String :=
  String.join (s.data.map (fun c =>
    if c = '&' then "&amp;" else if c = '<' then "&lt;"
    else if c = '>' then "&gt;" else if c = '"' then "&quot;"
    else String.singleton c))

/-- Render an attribute list as lxml does, in insertion order. -/
def renderAttrs (attrs : List (String × String)) : String :=
  String.join (attrs.map (fun kv => " " ++ kv.1 ++ "=\"" ++ escAttrVal kv.2 ++ "\""))

/-- Render the element at id `i` as `etree.tostring(..., pretty_print=True)`
does: an element with neither text nor children is self-closing, one with
only text is on one line, one with children puts each child on its own
line indented two more spaces.  The fuel argument bounds the recursion
depth; every child id is strictly larger than its parent's, so a fuel of
the arena size is always enough. -/
def renderNode (d : Doc) : Nat → Nat → Nat → String
  | 0, _, _ => ""
  | fuel + 1, i, indent =>
    match d[i]? with
    | none => ""
    | some nd =>
      let ind := String.join (List.replicate indent "  ")
      let opening := ind ++ "<" ++ nd.tag ++ renderAttrs nd.attrs
      match nd.text, nd.children with
      | none, [] => opening ++ "/>\n"
      | some t, [] => opening ++ ">" ++ escText t ++ "</" ++ nd.tag ++ ">\n"
      | _, cs =>
          opening ++ ">\n" ++
          String.join (cs.map (fun c => renderNode d fuel c (indent + 1))) ++
          ind ++ "</" ++ nd.tag ++ ">\n"

/-- `create_xmldoc()`: `etree.tostring(self.root, pretty_print=True,
xml_declaration=True, encoding='UTF-8')` — the XML declaration (lxml
writes it with single quotes) followed by the pretty-printed tree; the
builder state is read, never written. -/
def create_xmldoc (s : create_musicXML) : String × create_musicXML :=
  ("<?xml version='1.0' encoding='UTF-8'?>\n" ++
     renderNode s.doc (s.doc.length + 1) s.root 0, s)

/-- Unwrap a builder step that is known to succeed (test fixtures only);
an error falls back to the fresh builder. -/
def orInit (r : Except PyError create_musicXML) : create_musicXML :=
  match r with
  | .ok s => s
  | .error _ => init

/-- Fixture: one part and one open measure, the smallest state on which
notes and bar attributes can be created. -/
def exM : create_musicXML := orInit (create_measure (create_part init "Piano"))

/-- Fixture: `exM` after one eighth note, the state on which a tuplet
conversion is legal. -/
def exN : create_musicXML := orInit (new_note exM ("C", 0, 4) 8 "eighth" 4)

/-- Fixture: `exM` after one sharpened eighth note. -/
def exA : create_musicXML := orInit (new_note exM ("C", 1, 4) 8 "eighth" 4)

/-- Fixture: `exM` after one quarter note (the first-part state of the
cursor-interleaving claim). -/
def exC10 : create_musicXML := orInit (new_note exM ("C", 0, 4) 4 "quarter" 4)

/-- A sequence of `create_part` calls (the claim about part ids quantifies
over these). -/
def addParts (s : create_musicXML) (names : List String) : create_musicXML :=
  names.foldl create_part s

/-- The `id` attributes of the `score-part` entries of the part-list, in
document order. -/
def scorePartIds (s : create_musicXML) : List (Option String) :=
  ((childrenOf s.doc s.partlist).getD []).map (fun c => attrOf s.doc c "id")

/-- The `id` attributes of the `part` elements of the root, in document
order. -/
def rootPartIds (s : create_musicXML) : List (Option String) :=
  (((childrenOf s.doc s.root).getD []).filter
      (fun c => tagOf s.doc c == some "part")).map (fun c => attrOf s.doc c "id")

/-- The builder calls an interleaving claim ranges over. -/
inductive Cmd where
  | part : String → Cmd
  | measure : Cmd
deriving DecidableEq

/-- Run one command. -/
def runCmd (s : create_musicXML) : Cmd → Except PyError create_musicXML
  | .part name => .ok (create_part s name)
  | .measure => create_measure s

/-- Run a command sequence, stopping at the first raised exception. -/
def runCmds (s : create_musicXML) : List Cmd → Except PyError create_musicXML
  | [] => .ok s
  | c :: cs => do runCmds (← runCmd s c) cs

/-- The `number` attributes of the element ids `ms`. -/
def numbersOf (d : Doc) (ms : List Nat) : List (Option String) :=
  ms.map (fun m => attrOf d m "number")

/-- The inductive invariant of part/measure command runs from `init`:
the fixed root and part-list ids, every part element's measures numbered
1..k in order, and the bar counter in sync with the current part. -/
def C4Inv (s : create_musicXML) : Prop :=
  s.root = 0 ∧ s.partlist = 5 ∧ 6 ≤ s.doc.length ∧
  tagOf s.doc 1 = some "identification" ∧ tagOf s.doc 5 = some "part-list" ∧
  ∃ pts, childrenOf s.doc 0 = some ([1, 5] ++ pts) ∧
    (∀ p ∈ pts, 6 ≤ p ∧ p < s.doc.length ∧ tagOf s.doc p = some "part" ∧
      ∃ ms, childrenOf s.doc p = some ms ∧ (∀ m ∈ ms, m < s.doc.length) ∧
        numbersOf s.doc ms = (List.range ms.length).map (fun i => some (toString (i + 1)))) ∧
    (match s.current_part with
     | none => s.bar_nr = none
     | some cp => 6 ≤ cp ∧ cp < s.doc.length ∧
        ∃ ms, childrenOf s.doc cp = some ms ∧ (∀ m ∈ ms, m < s.doc.length) ∧
          s.bar_nr = some (ms.length + 1))

/-- Fixture: a five-command interleaving (two parts, three measures). -/
def exC4 : create_musicXML :=
  orInit (runCmds init [Cmd.part "A", Cmd.measure, Cmd.measure, Cmd.part "B", Cmd.measure])


end create_musicXML

/-! Projection lemmas over the arena primitives: how each of
`newElement`, `appendChild`, `subElement` and `setText` acts on the
projections `tagOf`, `textOf`, `attrOf` and `childrenOf`. -/

open create_musicXML

theorem listModify_length {α : Type} (l : List α) (i : Nat) (f : α → α) :
    (listModify l i f).length = l.length := by
  induction l generalizing i with
  | nil => rfl
  | cons a l ih =>
    cases i with
    | zero => simp [listModify]
    | succ n => simpa [listModify] using ih n

theorem getElem?_listModify_ne {α : Type} (l : List α) (i j : Nat) (f : α → α) (h : j ≠ i) :
    (listModify l i f)[j]? = l[j]? := by
  induction l generalizing i j with
  | nil => rfl
  | cons a l ih =>
    cases i with
    | zero => cases j with
      | zero => exact absurd rfl h
      | succ m => simp [listModify]
    | succ n => cases j with
      | zero => simp [listModify]
      | succ m => simpa [listModify] using ih n m (by omega)

theorem getElem?_listModify_self {α : Type} (l : List α) (i : Nat) (f : α → α) :
    (listModify l i f)[i]? = (l[i]?).map f := by
  induction l generalizing i with
  | nil => rfl
  | cons a l ih =>
    cases i with
    | zero => simp [listModify]
    | succ n => simpa [listModify] using ih n

theorem getElem?_append_lt' (d : Doc) (x : Node) (j : Nat) (h : j < d.length) :
    (d ++ [x])[j]? = d[j]? := by rw [List.getElem?_append]; simp [h]

theorem getElem?_append_len (d : Doc) (x : Node) : (d ++ [x])[d.length]? = some x := by
  induction d with
  | nil => rfl
  | cons a l ih => simp [ih]

theorem getElem?_ge (d : Doc) (j : Nat) (h : d.length ≤ j) : d[j]? = none :=
  List.getElem?_eq_none h

theorem getElem?_append_ne (d : Doc) (x : Node) (j : Nat) (h : j ≠ d.length) :
    (d ++ [x])[j]? = d[j]? := by
  rcases Nat.lt_or_ge j d.length with hlt | hge
  · exact getElem?_append_lt' d x j hlt
  · have h1 : d.length < j := by omega
    rw [getElem?_ge _ _ (by simp; omega), getElem?_ge _ _ (by omega)]

@[simp] theorem length_setText (d : Doc) (i : Nat) (s : String) :
    (setText d i s).length = d.length := listModify_length d i _

@[simp] theorem length_appendChild (d : Doc) (p c : Nat) :
    (appendChild d p c).length = d.length := listModify_length d p _

@[simp] theorem length_subElement (d : Doc) (p : Nat) (t : String) (a : List (String × String)) :
    ((subElement d p t a).1).length = d.length + 1 := by
  simp [subElement]

@[simp] theorem snd_subElement (d : Doc) (p : Nat) (t : String) (a : List (String × String)) :
    (subElement d p t a).2 = d.length := rfl

@[simp] theorem tagOf_setText (d : Doc) (i : Nat) (s : String) (j : Nat) :
    tagOf (setText d i s) j = tagOf d j := by
  unfold tagOf setText
  rcases eq_or_ne j i with rfl | h
  · rw [getElem?_listModify_self]; cases d[j]? <;> rfl
  · rw [getElem?_listModify_ne _ _ _ _ h]

@[simp] theorem attrOf_setText (d : Doc) (i : Nat) (s : String) (j : Nat) (key : String) :
    attrOf (setText d i s) j key = attrOf d j key := by
  unfold attrOf setText
  rcases eq_or_ne j i with rfl | h
  · rw [getElem?_listModify_self]; cases d[j]? <;> rfl
  · rw [getElem?_listModify_ne _ _ _ _ h]

@[simp] theorem childrenOf_setText (d : Doc) (i : Nat) (s : String) (j : Nat) :
    childrenOf (setText d i s) j = childrenOf d j := by
  unfold childrenOf setText
  rcases eq_or_ne j i with rfl | h
  · rw [getElem?_listModify_self]; cases d[j]? <;> rfl
  · rw [getElem?_listModify_ne _ _ _ _ h]

@[simp] theorem tagOf_appendChild (d : Doc) (p c : Nat) (j : Nat) :
    tagOf (appendChild d p c) j = tagOf d j := by
  unfold tagOf appendChild
  rcases eq_or_ne j p with rfl | h
  · rw [getElem?_listModify_self]; cases d[j]? <;> rfl
  · rw [getElem?_listModify_ne _ _ _ _ h]

@[simp] theorem textOf_appendChild (d : Doc) (p c : Nat) (j : Nat) :
    textOf (appendChild d p c) j = textOf d j := by
  unfold textOf appendChild
  rcases eq_or_ne j p with rfl | h
  · rw [getElem?_listModify_self]; cases d[j]? <;> rfl
  · rw [getElem?_listModify_ne _ _ _ _ h]

@[simp] theorem attrOf_appendChild (d : Doc) (p c : Nat) (j : Nat) (key : String) :
    attrOf (appendChild d p c) j key = attrOf d j key := by
  unfold attrOf appendChild
  rcases eq_or_ne j p with rfl | h
  · rw [getElem?_listModify_self]; cases d[j]? <;> rfl
  · rw [getElem?_listModify_ne _ _ _ _ h]

theorem tagOf_subElement_ne (d : Doc) (p : Nat) (t : String) (a : List (String × String))
    (j : Nat) (h : j ≠ d.length) :
    tagOf ((subElement d p t a).1) j = tagOf d j := by
  unfold subElement
  rw [tagOf_appendChild]
  unfold tagOf
  rw [getElem?_append_ne _ _ _ h]

theorem textOf_subElement_ne (d : Doc) (p : Nat) (t : String) (a : List (String × String))
    (j : Nat) (h : j ≠ d.length) :
    textOf ((subElement d p t a).1) j = textOf d j := by
  unfold subElement
  rw [textOf_appendChild]
  unfold textOf
  rw [getElem?_append_ne _ _ _ h]

theorem attrOf_subElement_ne (d : Doc) (p : Nat) (t : String) (a : List (String × String))
    (j : Nat) (key : String) (h : j ≠ d.length) :
    attrOf ((subElement d p t a).1) j key = attrOf d j key := by
  unfold subElement
  rw [attrOf_appendChild]
  unfold attrOf
  rw [getElem?_append_ne _ _ _ h]

theorem tagOf_subElement_self (d : Doc) (p : Nat) (t : String)
    (a : List (String × String)) (j : Nat) (hj : j = d.length) :
    tagOf ((subElement d p t a).1) j = some t := by
  subst hj
  unfold subElement
  rw [tagOf_appendChild]
  unfold tagOf
  rw [getElem?_append_len]
  rfl

theorem textOf_subElement_self (d : Doc) (p : Nat) (t : String)
    (a : List (String × String)) (j : Nat) (hj : j = d.length) :
    textOf ((subElement d p t a).1) j = some none := by
  subst hj
  unfold subElement
  rw [textOf_appendChild]
  unfold textOf
  rw [getElem?_append_len]
  rfl

theorem attrOf_subElement_self (d : Doc) (p : Nat) (t : String)
    (a : List (String × String)) (key : String) (j : Nat) (hj : j = d.length) :
    attrOf ((subElement d p t a).1) j key
      = (a.find? (fun kv => kv.1 = key)).map Prod.snd := by
  subst hj
  unfold subElement
  rw [attrOf_appendChild]
  unfold attrOf
  rw [getElem?_append_len]
  rfl

theorem childrenOf_subElement_ne (d : Doc) (p : Nat) (t : String)
    (a : List (String × String)) (j : Nat) (hp : j ≠ p) (hn : j ≠ d.length) :
    childrenOf ((subElement d p t a).1) j = childrenOf d j := by
  unfold subElement appendChild childrenOf
  rw [getElem?_listModify_ne _ _ _ _ hp, getElem?_append_ne _ _ _ hn]

theorem childrenOf_subElement_parent (d : Doc) (p : Nat) (t : String)
    (a : List (String × String)) (j : Nat) (hj : j = p) (hp : p < d.length) :
    childrenOf ((subElement d p t a).1) j
      = (childrenOf d p).map (fun cs => cs ++ [d.length]) := by
  subst hj
  unfold subElement appendChild childrenOf
  rw [getElem?_listModify_self, getElem?_append_lt' _ _ _ hp]
  cases d[j]? <;> rfl

theorem childrenOf_subElement_self (d : Doc) (p : Nat) (t : String)
    (a : List (String × String)) (j : Nat) (hj : j = d.length) (hp : p ≠ j) :
    childrenOf ((subElement d p t a).1) j = some [] := by
  subst hj
  unfold subElement appendChild childrenOf
  rw [getElem?_listModify_ne _ _ _ _ (Ne.symm hp), getElem?_append_len]
  rfl

theorem textOf_setText_self (d : Doc) (i : Nat) (s : String) (j : Nat) (hj : j = i)
    (h : i < d.length) :
    textOf (setText d i s) j = some (some s) := by
  subst hj
  unfold textOf setText
  rw [getElem?_listModify_self, List.getElem?_eq_getElem h]
  rfl

theorem textOf_setText_ne (d : Doc) (i : Nat) (s : String) (j : Nat) (h : j ≠ i) :
    textOf (setText d i s) j = textOf d j := by
  unfold textOf setText
  rw [getElem?_listModify_ne _ _ _ _ h]

theorem add_assoc_fold (n a b : Nat) : n + a + b = n + (a + b) := Nat.add_assoc n a b

/-! Shape lemmas: what one successful builder call does to the arena,
stated as explicit projections plus frame conditions for older elements. -/

/-- Shape of `create_part`: ids and projections of the three fresh elements,
the two parent-children extensions, and frames for everything older. -/
theorem create_part_shape (s : create_musicXML) (name : String) (b' : create_musicXML)
    (hpl : s.partlist < s.doc.length) (hrt : s.root < s.doc.length)
    (hne : s.root ≠ s.partlist) (H : create_part s name = b') :
      (b'.part_count = s.part_count + 1 ∧
      b'.current_part = some (s.doc.length + 2) ∧
      b'.bar_nr = some 1 ∧
      b'.current_bar = s.current_bar ∧
      b'.current_note = s.current_note ∧
      b'.duration = s.duration ∧
      b'.root = s.root ∧
      b'.partlist = s.partlist ∧
      b'.doc.length = s.doc.length + 3 ∧
      tagOf b'.doc s.doc.length = some "score-part" ∧
      attrOf b'.doc s.doc.length "id" = some ("P" ++ toString s.part_count) ∧
      childrenOf b'.doc s.doc.length = some [s.doc.length + 1] ∧
      tagOf b'.doc (s.doc.length + 1) = some "part-name" ∧
      textOf b'.doc (s.doc.length + 1) = some (some name) ∧
      tagOf b'.doc (s.doc.length + 2) = some "part" ∧
      attrOf b'.doc (s.doc.length + 2) "id" = some ("P" ++ toString s.part_count) ∧
      childrenOf b'.doc (s.doc.length + 2) = some [] ∧
      childrenOf b'.doc s.partlist
        = (childrenOf s.doc s.partlist).map (fun cs => cs ++ [s.doc.length]) ∧
      childrenOf b'.doc s.root
        = (childrenOf s.doc s.root).map (fun cs => cs ++ [s.doc.length + 2])) ∧
      (∀ j, j < s.doc.length → tagOf b'.doc j = tagOf s.doc j) ∧
      (∀ j, j < s.doc.length → textOf b'.doc j = textOf s.doc j) ∧
      (∀ j k, j < s.doc.length → attrOf b'.doc j k = attrOf s.doc j k) ∧
      (∀ j, j < s.doc.length → j ≠ s.partlist → j ≠ s.root →
        childrenOf b'.doc j = childrenOf s.doc j) := by
  have hppl : s.partlist ≠ s.doc.length := by omega
  have hppl1 : s.partlist ≠ s.doc.length + 1 := by omega
  have hppl2 : s.partlist ≠ s.doc.length + 2 := by omega
  have hprt : s.root ≠ s.doc.length := by omega
  have hprt1 : s.root ≠ s.doc.length + 1 := by omega
  have hprt2 : s.root ≠ s.doc.length + 2 := by omega
  have hplt1 : s.partlist < s.doc.length + 1 := by omega
  have hplt2 : s.partlist < s.doc.length + 2 := by omega
  have hrtt1 : s.root < s.doc.length + 1 := by omega
  have hrtt2 : s.root < s.doc.length + 2 := by omega
  subst H
  refine ⟨?_, ?_, ?_, ?_, ?_⟩
  · simp [create_part, tagOf_subElement_ne, textOf_subElement_ne, childrenOf_subElement_ne,
      attrOf_subElement_ne, tagOf_subElement_self, textOf_subElement_self,
      attrOf_subElement_self, childrenOf_subElement_parent, childrenOf_subElement_self,
      textOf_setText_self, textOf_setText_ne, add_assoc_fold,
      hpl, hrt, hne, hppl, hppl1, hppl2, hprt, hprt1, hprt2, Ne.symm hne,
      Ne.symm hppl, Ne.symm hppl1, Ne.symm hppl2, Ne.symm hprt, Ne.symm hprt1,
      Ne.symm hprt2, hplt1, hplt2, hrtt1, hrtt2]
  · intro j hj
    have e1 : j ≠ s.doc.length := by omega
    have e2 : j ≠ s.doc.length + 1 := by omega
    have e3 : j ≠ s.doc.length + 2 := by omega
    simp [create_part, tagOf_subElement_ne, add_assoc_fold, e1, e2, e3]
  · intro j hj
    have e1 : j ≠ s.doc.length := by omega
    have e2 : j ≠ s.doc.length + 1 := by omega
    have e3 : j ≠ s.doc.length + 2 := by omega
    simp [create_part, textOf_subElement_ne, textOf_setText_ne, add_assoc_fold, e1, e2, e3]
  · intro j k hj
    have e1 : j ≠ s.doc.length := by omega
    have e2 : j ≠ s.doc.length + 1 := by omega
    have e3 : j ≠ s.doc.length + 2 := by omega
    simp [create_part, attrOf_subElement_ne, add_assoc_fold, e1, e2, e3]
  · intro j hj hj1 hj2
    have e1 : j ≠ s.doc.length := by omega
    have e2 : j ≠ s.doc.length + 1 := by omega
    have e3 : j ≠ s.doc.length + 2 := by omega
    simp [create_part, childrenOf_subElement_ne, add_assoc_fold, e1, e2, e3, hj1, hj2]

/-- Shape of a successful `create_measure`: the fresh measure element, its
number attribute, the parent extension and frames. -/
theorem create_measure_shape (s : create_musicXML) (cp nr : Nat) (b' : create_musicXML)
    (hc : s.current_part = some cp) (hn : s.bar_nr = some nr) (hcp : cp < s.doc.length)
    (H : create_measure s = .ok b') :
      (b'.current_bar = some s.doc.length ∧
      b'.bar_nr = some (nr + 1) ∧
      b'.current_part = s.current_part ∧
      b'.part_count = s.part_count ∧
      b'.root = s.root ∧
      b'.partlist = s.partlist ∧
      b'.current_note = s.current_note ∧
      b'.duration = s.duration ∧
      b'.doc.length = s.doc.length + 1 ∧
      tagOf b'.doc s.doc.length = some "measure" ∧
      attrOf b'.doc s.doc.length "number" = some (toString nr) ∧
      childrenOf b'.doc s.doc.length = some [] ∧
      childrenOf b'.doc cp = (childrenOf s.doc cp).map (fun cs => cs ++ [s.doc.length])) ∧
      (∀ j, j < s.doc.length → tagOf b'.doc j = tagOf s.doc j) ∧
      (∀ j, j < s.doc.length → textOf b'.doc j = textOf s.doc j) ∧
      (∀ j k, j < s.doc.length → attrOf b'.doc j k = attrOf s.doc j k) ∧
      (∀ j, j < s.doc.length → j ≠ cp →
        childrenOf b'.doc j = childrenOf s.doc j) := by
  have h1 : cp ≠ s.doc.length := by omega
  simp [create_measure, getAttr, hc, hn, bind, Except.bind, pure, Except.pure] at H
  subst H
  refine ⟨?_, ?_, ?_, ?_, ?_⟩
  · simp [tagOf_subElement_ne, textOf_subElement_ne, childrenOf_subElement_ne,
      attrOf_subElement_ne, tagOf_subElement_self, textOf_subElement_self,
      attrOf_subElement_self, childrenOf_subElement_parent, childrenOf_subElement_self,
      add_assoc_fold, hcp, h1, Ne.symm h1, hc, hn]
  · intro j hj
    have e1 : j ≠ s.doc.length := by omega
    simp [tagOf_subElement_ne, add_assoc_fold, e1]
  · intro j hj
    have e1 : j ≠ s.doc.length := by omega
    simp [textOf_subElement_ne, add_assoc_fold, e1]
  · intro j k hj
    have e1 : j ≠ s.doc.length := by omega
    simp [attrOf_subElement_ne, add_assoc_fold, e1]
  · intro j hj hj1
    have e1 : j ≠ s.doc.length := by omega
    simp [childrenOf_subElement_ne, add_assoc_fold, e1, hj1]

/-- Shape of a successful `tuplet_note` with no tuplet type: the duration
overwrite, the time-modification element, and frames. -/
theorem tuplet_note_shape_none (s : create_musicXML) (cn did : Nat) (fr : Nat × Nat)
    (l dv : Nat) (b' : create_musicXML)
    (hn : s.current_note = some cn) (hcn : cn < s.doc.length)
    (hd : s.duration = some did) (hdid : did < s.doc.length)
    (hb : l * fr.1 ≠ 0)
    (H : tuplet_note s fr l none dv = .ok b') :
      (b'.doc.length = s.doc.length + 3 ∧
      b'.current_note = s.current_note ∧
      b'.duration = s.duration ∧
      textOf b'.doc did = some (some (toString (dv * 4 * fr.2 / (l * fr.1)))) ∧
      childrenOf b'.doc cn = (childrenOf s.doc cn).map (fun cs => cs ++ [s.doc.length]) ∧
      tagOf b'.doc s.doc.length = some "time-modification" ∧
      childrenOf b'.doc s.doc.length = some [s.doc.length + 1, s.doc.length + 2] ∧
      tagOf b'.doc (s.doc.length + 1) = some "actual-notes" ∧
      textOf b'.doc (s.doc.length + 1) = some (some (toString fr.1)) ∧
      tagOf b'.doc (s.doc.length + 2) = some "normal-notes" ∧
      textOf b'.doc (s.doc.length + 2) = some (some (toString fr.2))) ∧
      (∀ j, j < s.doc.length → tagOf b'.doc j = tagOf s.doc j) ∧
      (∀ j, j < s.doc.length → j ≠ did → textOf b'.doc j = textOf s.doc j) ∧
      (∀ j k, j < s.doc.length → attrOf b'.doc j k = attrOf s.doc j k) ∧
      (∀ j, j < s.doc.length → j ≠ cn →
        childrenOf b'.doc j = childrenOf s.doc j) := by
  have e1 : cn ≠ s.doc.length := by omega
  have e2 : cn ≠ s.doc.length + 1 := by omega
  have e3 : cn ≠ s.doc.length + 2 := by omega
  have f0 : did ≠ s.doc.length := by omega
  have f1 : did ≠ s.doc.length + 1 := by omega
  have f2 : did ≠ s.doc.length + 2 := by omega
  have g1 : cn < s.doc.length + 1 := by omega
  have g2 : cn < s.doc.length + 2 := by omega
  simp [tuplet_note, change_div_duration, add_time_modify, getAttr, hn, hd, hb,
    bind, Except.bind, pure, Except.pure] at H
  subst H
  refine ⟨?_, ?_, ?_, ?_, ?_⟩
  · simp [tagOf_subElement_ne, textOf_subElement_ne, childrenOf_subElement_ne,
      attrOf_subElement_ne, tagOf_subElement_self, textOf_subElement_self,
      attrOf_subElement_self, childrenOf_subElement_parent, childrenOf_subElement_self,
      textOf_setText_self, textOf_setText_ne, add_assoc_fold,
      hcn, hdid, e1, e2, e3, f0, f1, f2, g1, g2, hn, hd,
      Ne.symm e1, Ne.symm f0]
  · intro j hj
    have j1 : j ≠ s.doc.length := by omega
    have j2 : j ≠ s.doc.length + 1 := by omega
    have j3 : j ≠ s.doc.length + 2 := by omega
    simp [tagOf_subElement_ne, add_assoc_fold, j1, j2, j3]
  · intro j hj hjd
    have j1 : j ≠ s.doc.length := by omega
    have j2 : j ≠ s.doc.length + 1 := by omega
    have j3 : j ≠ s.doc.length + 2 := by omega
    simp [textOf_subElement_ne, textOf_setText_ne, add_assoc_fold, j1, j2, j3, hjd]
  · intro j k hj
    have j1 : j ≠ s.doc.length := by omega
    have j2 : j ≠ s.doc.length + 1 := by omega
    have j3 : j ≠ s.doc.length + 2 := by omega
    simp [attrOf_subElement_ne, add_assoc_fold, j1, j2, j3]
  · intro j hj hjc
    have j1 : j ≠ s.doc.length := by omega
    have j2 : j ≠ s.doc.length + 1 := by omega
    have j3 : j ≠ s.doc.length + 2 := by omega
    simp [childrenOf_subElement_ne, add_assoc_fold, j1, j2, j3, hjc]

/-- Shape of a successful `tuplet_note` with a non-empty tuplet type: as the
untyped case plus the notations/tuplet pair. -/
theorem tuplet_note_shape_type (s : create_musicXML) (cn did : Nat) (fr : Nat × Nat)
    (l dv : Nat) (t : String) (b' : create_musicXML)
    (hn : s.current_note = some cn) (hcn : cn < s.doc.length)
    (hd : s.duration = some did) (hdid : did < s.doc.length)
    (hb : l * fr.1 ≠ 0) (ht : t ≠ "")
    (H : tuplet_note s fr l (some t) dv = .ok b') :
      (b'.doc.length = s.doc.length + 5 ∧
      b'.current_note = s.current_note ∧
      b'.duration = s.duration ∧
      textOf b'.doc did = some (some (toString (dv * 4 * fr.2 / (l * fr.1)))) ∧
      childrenOf b'.doc cn
        = (childrenOf s.doc cn).map (fun cs => cs ++ [s.doc.length, s.doc.length + 3]) ∧
      tagOf b'.doc s.doc.length = some "time-modification" ∧
      childrenOf b'.doc s.doc.length = some [s.doc.length + 1, s.doc.length + 2] ∧
      tagOf b'.doc (s.doc.length + 1) = some "actual-notes" ∧
      textOf b'.doc (s.doc.length + 1) = some (some (toString fr.1)) ∧
      tagOf b'.doc (s.doc.length + 2) = some "normal-notes" ∧
      textOf b'.doc (s.doc.length + 2) = some (some (toString fr.2)) ∧
      tagOf b'.doc (s.doc.length + 3) = some "notations" ∧
      childrenOf b'.doc (s.doc.length + 3) = some [s.doc.length + 4] ∧
      tagOf b'.doc (s.doc.length + 4) = some "tuplet" ∧
      attrOf b'.doc (s.doc.length + 4) "type" = some t) ∧
      (∀ j, j < s.doc.length → tagOf b'.doc j = tagOf s.doc j) ∧
      (∀ j, j < s.doc.length → j ≠ did → textOf b'.doc j = textOf s.doc j) ∧
      (∀ j k, j < s.doc.length → attrOf b'.doc j k = attrOf s.doc j k) ∧
      (∀ j, j < s.doc.length → j ≠ cn →
        childrenOf b'.doc j = childrenOf s.doc j) := by
  have e1 : cn ≠ s.doc.length := by omega
  have e2 : cn ≠ s.doc.length + 1 := by omega
  have e3 : cn ≠ s.doc.length + 2 := by omega
  have e4 : cn ≠ s.doc.length + 3 := by omega
  have e5 : cn ≠ s.doc.length + 4 := by omega
  have f0 : did ≠ s.doc.length := by omega
  have f1 : did ≠ s.doc.length + 1 := by omega
  have f2 : did ≠ s.doc.length + 2 := by omega
  have f3 : did ≠ s.doc.length + 3 := by omega
  have f4 : did ≠ s.doc.length + 4 := by omega
  have g1 : cn < s.doc.length + 1 := by omega
  have g2 : cn < s.doc.length + 2 := by omega
  have g3 : cn < s.doc.length + 3 := by omega
  have g4 : cn < s.doc.length + 4 := by omega
  simp [tuplet_note, change_div_duration, add_time_modify, add_notations, add_tuplet_type,
    getAttr, hn, hd, hb, ht, bind, Except.bind, pure, Except.pure] at H
  subst H
  refine ⟨?_, ?_, ?_, ?_, ?_⟩
  · simp [tagOf_subElement_ne, textOf_subElement_ne, childrenOf_subElement_ne,
      attrOf_subElement_ne, tagOf_subElement_self, textOf_subElement_self,
      attrOf_subElement_self, childrenOf_subElement_parent, childrenOf_subElement_self,
      textOf_setText_self, textOf_setText_ne, add_assoc_fold,
      hcn, hdid, hn, hd, e1, e2, e3, e4, e5, f0, f1, f2, f3, f4, g1, g2, g3, g4,
      Ne.symm e1, Ne.symm e4, Ne.symm f0]
    cases childrenOf s.doc cn <;> simp
  · intro j hj
    have j1 : j ≠ s.doc.length := by omega
    have j2 : j ≠ s.doc.length + 1 := by omega
    have j3 : j ≠ s.doc.length + 2 := by omega
    have j4 : j ≠ s.doc.length + 3 := by omega
    have j5 : j ≠ s.doc.length + 4 := by omega
    simp [tagOf_subElement_ne, add_assoc_fold, j1, j2, j3, j4, j5]
  · intro j hj hjd
    have j1 : j ≠ s.doc.length := by omega
    have j2 : j ≠ s.doc.length + 1 := by omega
    have j3 : j ≠ s.doc.length + 2 := by omega
    have j4 : j ≠ s.doc.length + 3 := by omega
    have j5 : j ≠ s.doc.length + 4 := by omega
    simp [textOf_subElement_ne, textOf_setText_ne, add_assoc_fold, j1, j2, j3, j4, j5, hjd]
  · intro j k hj
    have j1 : j ≠ s.doc.length := by omega
    have j2 : j ≠ s.doc.length + 1 := by omega
    have j3 : j ≠ s.doc.length + 2 := by omega
    have j4 : j ≠ s.doc.length + 3 := by omega
    have j5 : j ≠ s.doc.length + 4 := by omega
    simp [attrOf_subElement_ne, add_assoc_fold, j1, j2, j3, j4, j5]
  · intro j hj hjc
    have j1 : j ≠ s.doc.length := by omega
    have j2 : j ≠ s.doc.length + 1 := by omega
    have j3 : j ≠ s.doc.length + 2 := by omega
    have j4 : j ≠ s.doc.length + 3 := by omega
    have j5 : j ≠ s.doc.length + 4 := by omega
    simp [childrenOf_subElement_ne, add_assoc_fold, j1, j2, j3, j4, j5, hjc]

/-- Shape of a successful `new_note` whose pitch has alteration 0: the note,
pitch (no alter child), duration, type (no accidental), and frames. -/
theorem new_note_shape_zero (s : create_musicXML) (cb : Nat) (step : String) (oct : Int)
    (l : Nat) (t : String) (dv : Nat) (b' : create_musicXML)
    (h : s.current_bar = some cb) (hcb : cb < s.doc.length) (hl : l ≠ 0)
    (H : new_note s (step, 0, oct) l t dv = .ok b') :
      (b'.current_note = some s.doc.length ∧
      b'.duration = some (s.doc.length + 4) ∧
      b'.current_bar = s.current_bar ∧
      b'.current_part = s.current_part ∧
      b'.bar_nr = s.bar_nr ∧
      b'.part_count = s.part_count ∧
      b'.root = s.root ∧
      b'.partlist = s.partlist ∧
      b'.doc.length = s.doc.length + 6 ∧
      tagOf b'.doc s.doc.length = some "note" ∧
      childrenOf b'.doc s.doc.length = some [s.doc.length + 1, s.doc.length + 4, s.doc.length + 5] ∧
      tagOf b'.doc (s.doc.length + 1) = some "pitch" ∧
      childrenOf b'.doc (s.doc.length + 1) = some [s.doc.length + 2, s.doc.length + 3] ∧
      tagOf b'.doc (s.doc.length + 2) = some "step" ∧
      textOf b'.doc (s.doc.length + 2) = some (some step) ∧
      tagOf b'.doc (s.doc.length + 3) = some "octave" ∧
      textOf b'.doc (s.doc.length + 3) = some (some (toString oct)) ∧
      tagOf b'.doc (s.doc.length + 4) = some "duration" ∧
      textOf b'.doc (s.doc.length + 4) = some (some (toString (dv * 4 / l))) ∧
      tagOf b'.doc (s.doc.length + 5) = some "type" ∧
      textOf b'.doc (s.doc.length + 5) = some (some t) ∧
      childrenOf b'.doc cb = (childrenOf s.doc cb).map (fun cs => cs ++ [s.doc.length])) ∧
      (∀ j, j < s.doc.length → tagOf b'.doc j = tagOf s.doc j) ∧
      (∀ j, j < s.doc.length → textOf b'.doc j = textOf s.doc j) ∧
      (∀ j k, j < s.doc.length → attrOf b'.doc j k = attrOf s.doc j k) ∧
      (∀ j, j < s.doc.length → j ≠ cb →
        childrenOf b'.doc j = childrenOf s.doc j) := by
  have hne1 : cb ≠ s.doc.length := by omega
  have hne2 : cb ≠ s.doc.length + 1 := by omega
  have hne3 : cb ≠ s.doc.length + 2 := by omega
  have hne4 : cb ≠ s.doc.length + 3 := by omega
  have hne5 : cb ≠ s.doc.length + 4 := by omega
  have hne6 : cb ≠ s.doc.length + 5 := by omega
  simp [new_note, create_note, add_pitch, add_div_duration, add_duration_type, getAttr, h, hl,
    bind, Except.bind, pure, Except.pure] at H
  subst H
  refine ⟨?_, ?_, ?_, ?_, ?_⟩
  · simp [tagOf_subElement_ne, textOf_subElement_ne, childrenOf_subElement_ne,
      attrOf_subElement_ne, tagOf_subElement_self, textOf_subElement_self,
      childrenOf_subElement_parent, childrenOf_subElement_self,
      textOf_setText_self, textOf_setText_ne,
      add_assoc_fold, hcb, h, hne1, hne2, hne3, hne4, hne5, hne6]
  · intro j hj
    have j1 : j ≠ s.doc.length := by omega
    have j2 : j ≠ s.doc.length + 1 := by omega
    have j3 : j ≠ s.doc.length + 2 := by omega
    have j4 : j ≠ s.doc.length + 3 := by omega
    have j5 : j ≠ s.doc.length + 4 := by omega
    have j6 : j ≠ s.doc.length + 5 := by omega
    simp [tagOf_subElement_ne, add_assoc_fold, j1, j2, j3, j4, j5, j6]
  · intro j hj
    have j1 : j ≠ s.doc.length := by omega
    have j2 : j ≠ s.doc.length + 1 := by omega
    have j3 : j ≠ s.doc.length + 2 := by omega
    have j4 : j ≠ s.doc.length + 3 := by omega
    have j5 : j ≠ s.doc.length + 4 := by omega
    have j6 : j ≠ s.doc.length + 5 := by omega
    simp [textOf_subElement_ne, textOf_setText_ne, add_assoc_fold, j1, j2, j3, j4, j5, j6]
  · intro j k hj
    have j1 : j ≠ s.doc.length := by omega
    have j2 : j ≠ s.doc.length + 1 := by omega
    have j3 : j ≠ s.doc.length + 2 := by omega
    have j4 : j ≠ s.doc.length + 3 := by omega
    have j5 : j ≠ s.doc.length + 4 := by omega
    have j6 : j ≠ s.doc.length + 5 := by omega
    simp [attrOf_subElement_ne, add_assoc_fold, j1, j2, j3, j4, j5, j6]
  · intro j hj hjc
    have j1 : j ≠ s.doc.length := by omega
    have j2 : j ≠ s.doc.length + 1 := by omega
    have j3 : j ≠ s.doc.length + 2 := by omega
    have j4 : j ≠ s.doc.length + 3 := by omega
    have j5 : j ≠ s.doc.length + 4 := by omega
    have j6 : j ≠ s.doc.length + 5 := by omega
    simp [childrenOf_subElement_ne, add_assoc_fold, j1, j2, j3, j4, j5, j6, hjc]

/-- Shape of a successful `new_note` whose pitch has a non-zero alteration:
as the unaltered case plus the pitch/alter child and the accidental. -/
theorem new_note_shape_alt (s : create_musicXML) (cb : Nat) (step : String) (alter oct : Int)
    (l : Nat) (t : String) (dv : Nat) (b' : create_musicXML)
    (h : s.current_bar = some cb) (hcb : cb < s.doc.length) (hl : l ≠ 0) (ha : alter ≠ 0)
    (H : new_note s (step, alter, oct) l t dv = .ok b') :
      (b'.current_note = some s.doc.length ∧
      b'.duration = some (s.doc.length + 5) ∧
      b'.current_bar = s.current_bar ∧
      b'.current_part = s.current_part ∧
      b'.bar_nr = s.bar_nr ∧
      b'.part_count = s.part_count ∧
      b'.root = s.root ∧
      b'.partlist = s.partlist ∧
      b'.doc.length = s.doc.length + 8 ∧
      tagOf b'.doc s.doc.length = some "note" ∧
      childrenOf b'.doc s.doc.length
        = some [s.doc.length + 1, s.doc.length + 5, s.doc.length + 6, s.doc.length + 7] ∧
      tagOf b'.doc (s.doc.length + 1) = some "pitch" ∧
      childrenOf b'.doc (s.doc.length + 1)
        = some [s.doc.length + 2, s.doc.length + 3, s.doc.length + 4] ∧
      tagOf b'.doc (s.doc.length + 2) = some "step" ∧
      textOf b'.doc (s.doc.length + 2) = some (some step) ∧
      tagOf b'.doc (s.doc.length + 3) = some "alter" ∧
      textOf b'.doc (s.doc.length + 3) = some (some (toString alter)) ∧
      tagOf b'.doc (s.doc.length + 4) = some "octave" ∧
      textOf b'.doc (s.doc.length + 4) = some (some (toString oct)) ∧
      tagOf b'.doc (s.doc.length + 5) = some "duration" ∧
      textOf b'.doc (s.doc.length + 5) = some (some (toString (dv * 4 / l))) ∧
      tagOf b'.doc (s.doc.length + 6) = some "type" ∧
      textOf b'.doc (s.doc.length + 6) = some (some t) ∧
      tagOf b'.doc (s.doc.length + 7) = some "accidental" ∧
      textOf b'.doc (s.doc.length + 7)
        = some (some (if alter > 0 then "sharp" else "flat")) ∧
      childrenOf b'.doc cb = (childrenOf s.doc cb).map (fun cs => cs ++ [s.doc.length])) ∧
      (∀ j, j < s.doc.length → tagOf b'.doc j = tagOf s.doc j) ∧
      (∀ j, j < s.doc.length → textOf b'.doc j = textOf s.doc j) ∧
      (∀ j k, j < s.doc.length → attrOf b'.doc j k = attrOf s.doc j k) ∧
      (∀ j, j < s.doc.length → j ≠ cb →
        childrenOf b'.doc j = childrenOf s.doc j) := by
  have hne1 : cb ≠ s.doc.length := by omega
  have hne2 : cb ≠ s.doc.length + 1 := by omega
  have hne3 : cb ≠ s.doc.length + 2 := by omega
  have hne4 : cb ≠ s.doc.length + 3 := by omega
  have hne5 : cb ≠ s.doc.length + 4 := by omega
  have hne6 : cb ≠ s.doc.length + 5 := by omega
  have hne7 : cb ≠ s.doc.length + 6 := by omega
  have hne8 : cb ≠ s.doc.length + 7 := by omega
  simp [new_note, create_note, add_pitch, add_div_duration, add_duration_type, add_accidental,
    getAttr, h, hl, ha, bind, Except.bind, pure, Except.pure] at H
  subst H
  refine ⟨?_, ?_, ?_, ?_, ?_⟩
  · simp [tagOf_subElement_ne, textOf_subElement_ne, childrenOf_subElement_ne,
      attrOf_subElement_ne, tagOf_subElement_self, textOf_subElement_self,
      childrenOf_subElement_parent, childrenOf_subElement_self,
      textOf_setText_self, textOf_setText_ne,
      add_assoc_fold, hcb, h, hne1, hne2, hne3, hne4, hne5, hne6, hne7, hne8]
  · intro j hj
    have j1 : j ≠ s.doc.length := by omega
    have j2 : j ≠ s.doc.length + 1 := by omega
    have j3 : j ≠ s.doc.length + 2 := by omega
    have j4 : j ≠ s.doc.length + 3 := by omega
    have j5 : j ≠ s.doc.length + 4 := by omega
    have j6 : j ≠ s.doc.length + 5 := by omega
    have j7 : j ≠ s.doc.length + 6 := by omega
    have j8 : j ≠ s.doc.length + 7 := by omega
    simp [tagOf_subElement_ne, add_assoc_fold, j1, j2, j3, j4, j5, j6, j7, j8]
  · intro j hj
    have j1 : j ≠ s.doc.length := by omega
    have j2 : j ≠ s.doc.length + 1 := by omega
    have j3 : j ≠ s.doc.length + 2 := by omega
    have j4 : j ≠ s.doc.length + 3 := by omega
    have j5 : j ≠ s.doc.length + 4 := by omega
    have j6 : j ≠ s.doc.length + 5 := by omega
    have j7 : j ≠ s.doc.length + 6 := by omega
    have j8 : j ≠ s.doc.length + 7 := by omega
    simp [textOf_subElement_ne, textOf_setText_ne, add_assoc_fold,
      j1, j2, j3, j4, j5, j6, j7, j8]
  · intro j k hj
    have j1 : j ≠ s.doc.length := by omega
    have j2 : j ≠ s.doc.length + 1 := by omega
    have j3 : j ≠ s.doc.length + 2 := by omega
    have j4 : j ≠ s.doc.length + 3 := by omega
    have j5 : j ≠ s.doc.length + 4 := by omega
    have j6 : j ≠ s.doc.length + 5 := by omega
    have j7 : j ≠ s.doc.length + 6 := by omega
    have j8 : j ≠ s.doc.length + 7 := by omega
    simp [attrOf_subElement_ne, add_assoc_fold, j1, j2, j3, j4, j5, j6, j7, j8]
  · intro j hj hjc
    have j1 : j ≠ s.doc.length := by omega
    have j2 : j ≠ s.doc.length + 1 := by omega
    have j3 : j ≠ s.doc.length + 2 := by omega
    have j4 : j ≠ s.doc.length + 3 := by omega
    have j5 : j ≠ s.doc.length + 4 := by omega
    have j6 : j ≠ s.doc.length + 5 := by omega
    have j7 : j ≠ s.doc.length + 6 := by omega
    have j8 : j ≠ s.doc.length + 7 := by omega
    simp [childrenOf_subElement_ne, add_assoc_fold, j1, j2, j3, j4, j5, j6, j7, j8, hjc]

/-! The claims. -/

/-- C9: calling `create_measure` when no part has ever been created (the
`current_part` attribute is unset) fails with the Python `AttributeError`
for `current_part` raised at the attribute access, not with a declared
error. -/
theorem create_measure_no_part_spec (s : create_musicXML)
    (h : s.current_part = none) :
    create_measure s = .error (.attributeError "current_part") := by
  simp [create_measure, getAttr, h, bind, Except.bind]

/-- Witness for C9: the freshly initialised builder has no current part and
`create_measure` raises `AttributeError` on it. -/
theorem create_measure_no_part_witness :
    create_measure init = .error (.attributeError "current_part") :=
  create_measure_no_part_spec init rfl

/-- C8 counterexample: `new_note` with a zero divisions value does not
raise a division fault (divisions is a numerator): on a builder with one
part and one measure it succeeds and stores duration text "0". -/
theorem new_note_zero_divs_ok :
    ∃ b', new_note exM ("C", 0, 4) 4 "quarter" 0 = .ok b' ∧
      b'.duration = some 14 ∧ textOf b'.doc 14 = some (some "0") :=
  ⟨_, rfl, rfl, rfl⟩

/-- C8 (amended): a zero noteLength makes `new_note` raise
`ZeroDivisionError` (a raw arithmetic fault, not a declared error), but a
zero divisions value does not fault: the computed duration is
`0 * 4 / noteLength = 0` and the note is stored with duration text "0". -/
theorem new_note_zero_len_spec :
    (∀ s cb pitch t dv, s.current_bar = some cb →
      new_note s pitch 0 t dv = .error .zeroDivisionError) ∧
    (∀ s cb step oct l t b', s.current_bar = some cb → cb < s.doc.length →
      l ≠ 0 → new_note s (step, 0, oct) l t 0 = .ok b' →
      textOf b'.doc (s.doc.length + 4) = some (some "0")) := by
  constructor
  · intro s cb pitch t dv h
    simp [new_note, create_note, add_pitch, getAttr, h, bind, Except.bind, pure, Except.pure]
  · intro s cb step oct l t b' h hcb hl H
    obtain ⟨⟨_, _, _, _, _, _, _, _, _, _, _, _, _, _, _, _, _, _, htextd, _, _, _⟩,
        _, _, _, _⟩ := new_note_shape_zero s cb step oct l t 0 b' h hcb hl H
    rw [show (0 * 4 / l : Nat) = 0 by simp] at htextd
    exact htextd

/-- C7: `create_xmldoc` returns the pretty-printed tree with an XML
declaration as a pure function of the tree state: the builder state is
returned unchanged, a repeated call yields the same string (the UTF-8
bytes of which are what lxml returns), and on the freshly initialised
builder the output is the expected well-formed `score-partwise` document
with an empty `part-list` and no `part` elements. -/
theorem create_xmldoc_spec :
    (∀ s, (create_xmldoc s).2 = s) ∧
    (∀ s, (create_xmldoc ((create_xmldoc s).2)).1 = (create_xmldoc s).1) ∧
    (create_xmldoc init).1 =
      "<?xml version='1.0' encoding='UTF-8'?>\n<score-partwise version=\"3.0\">\n  <identification>\n    <encoding>\n      <software>Frescobaldi</software>\n      <encoding-date/>\n    </encoding>\n  </identification>\n  <part-list/>\n</score-partwise>\n" ∧
    tagOf init.doc init.root = some "score-partwise" ∧
    attrOf init.doc init.root "version" = some "3.0" ∧
    childrenOf init.doc init.partlist = some [] ∧
    ((childrenOf init.doc init.root).getD []).filter
        (fun c => tagOf init.doc c == some "part") = [] := by
  exact ⟨fun s => rfl, fun s => rfl, rfl, rfl, rfl, rfl, rfl⟩

/-- C1: every note stored by `new_note` with divisions `dv` and note length
`l > 0` carries duration text `toString (dv * 4 / l)` (Python 2 floor
division) in the `duration` child kept in the duration cursor; in
particular `l = 4, dv = 4` stores "4" and `l = 8, dv = 4` stores "2". -/
theorem new_note_duration_spec :
    (∀ s cb step alter oct l t dv b', s.current_bar = some cb → cb < s.doc.length →
      l ≠ 0 → new_note s (step, alter, oct) l t dv = .ok b' →
      ∃ nid did, b'.current_note = some nid ∧ b'.duration = some did ∧
        tagOf b'.doc did = some "duration" ∧
        did ∈ (childrenOf b'.doc nid).getD [] ∧
        textOf b'.doc did = some (some (toString (dv * 4 / l)))) ∧
    (∃ b', new_note exM ("C", 0, 4) 4 "quarter" 4 = .ok b' ∧
      b'.duration = some 14 ∧ textOf b'.doc 14 = some (some "4")) ∧
    (∃ b', new_note exM ("C", 0, 4) 8 "eighth" 4 = .ok b' ∧
      b'.duration = some 14 ∧ textOf b'.doc 14 = some (some "2")) := by
  refine ⟨?_, ⟨_, rfl, rfl, rfl⟩, ⟨_, rfl, rfl, rfl⟩⟩
  intro s cb step alter oct l t dv b' h hcb hl H
  by_cases ha : alter = 0
  · subst ha
    obtain ⟨⟨hcn, hdu, _, _, _, _, _, _, _, _, hchn, _, _, _, _, _, _, htagd, htextd, _, _, _⟩,
        _, _, _, _⟩ := new_note_shape_zero s cb step oct l t dv b' h hcb hl H
    exact ⟨_, _, hcn, hdu, htagd, by simp [hchn], htextd⟩
  · obtain ⟨⟨hcn, hdu, _, _, _, _, _, _, _, _, hchn, _, _, _, _, _, _, _, _, htagd, htextd,
        _, _, _, _, _⟩, _, _, _, _⟩ :=
      new_note_shape_alt s cb step alter oct l t dv b' h hcb hl ha H
    exact ⟨_, _, hcn, hdu, htagd, by simp [hchn], htextd⟩

/-- C6: a pitched note's alteration controls the accidental: a positive
alteration yields an `accidental` child with text "sharp", a negative one
yields "flat", and alteration 0 yields neither an `accidental` child of
the note nor an `alter` child of the pitch. -/
theorem accidental_spec (s : create_musicXML) (cb : Nat) (step : String) (alter oct : Int)
    (l : Nat) (t : String) (dv : Nat) (b' : create_musicXML)
    (h : s.current_bar = some cb) (hcb : cb < s.doc.length) (hl : l ≠ 0)
    (H : new_note s (step, alter, oct) l t dv = .ok b') :
    (alter > 0 → ∃ nid acc, b'.current_note = some nid ∧
      acc ∈ (childrenOf b'.doc nid).getD [] ∧
      tagOf b'.doc acc = some "accidental" ∧ textOf b'.doc acc = some (some "sharp")) ∧
    (alter < 0 → ∃ nid acc, b'.current_note = some nid ∧
      acc ∈ (childrenOf b'.doc nid).getD [] ∧
      tagOf b'.doc acc = some "accidental" ∧ textOf b'.doc acc = some (some "flat")) ∧
    (alter = 0 → ∃ nid pid, b'.current_note = some nid ∧
      (∀ c ∈ (childrenOf b'.doc nid).getD [], tagOf b'.doc c ≠ some "accidental") ∧
      pid ∈ (childrenOf b'.doc nid).getD [] ∧ tagOf b'.doc pid = some "pitch" ∧
      (∀ c ∈ (childrenOf b'.doc pid).getD [], tagOf b'.doc c ≠ some "alter")) := by
  by_cases ha : alter = 0
  · subst ha
    obtain ⟨⟨hcn, _, _, _, _, _, _, _, _, _, hchn, htagp, hchp, htags, _, htago, _, htagd, _,
        htagt, _, _⟩, _, _, _, _⟩ := new_note_shape_zero s cb step oct l t dv b' h hcb hl H
    refine ⟨by omega, by omega, fun _ => ⟨_, s.doc.length + 1, hcn, ?_, ?_, ?_, ?_⟩⟩
    · intro c hc
      simp [hchn] at hc
      rcases hc with rfl | rfl | rfl <;>
        simp [htagp, htagd, htagt]
    · simp [hchn]
    · exact htagp
    · intro c hc
      simp [hchp] at hc
      rcases hc with rfl | rfl <;> simp [htags, htago]
  · obtain ⟨⟨hcn, _, _, _, _, _, _, _, _, _, hchn, _, _, _, _, _, _, _, _, _, _, _, _,
        htagacc, htextacc, _⟩, _, _, _, _⟩ :=
      new_note_shape_alt s cb step alter oct l t dv b' h hcb hl ha H
    constructor
    · intro hpos
      refine ⟨_, _, hcn, by simp [hchn], htagacc, ?_⟩
      rw [htextacc]
      simp [hpos]
    · refine ⟨fun hneg => ⟨_, _, hcn, by simp [hchn], htagacc, ?_⟩, fun h0 => absurd h0 ha⟩
      rw [htextacc]
      simp [show ¬ alter > 0 by omega]

/-- Witness for C6: on the one-part one-measure builder, a note with
alteration +1 gets an accidental child with text "sharp". -/
theorem accidental_witness :
    ∃ nid acc, exA.current_note = some nid ∧
      acc ∈ (childrenOf exA.doc nid).getD [] ∧
      tagOf exA.doc acc = some "accidental" ∧
      textOf exA.doc acc = some (some "sharp") :=
  (accidental_spec exM 9 "C" 1 4 8 "eighth" 4 exA rfl (by decide) (by decide) rfl).1
    (by decide)

/-- C2: `tuplet_note` right after a note overwrites the stored duration
text with `divs * 4 * normalNotes / (noteLength * actualNotes)` (floor =
truncating division on these non-negative ints), appends a
`time-modification` element with `actual-notes`/`normal-notes` children
to the note, and, when a non-empty tuplet type is given, also appends a
`notations` element holding a `tuplet` child with that `type` attribute;
the spec's example (ratio (3,2), noteLength 8, divisions 4) stores
32/24 truncated = 1. -/
theorem tuplet_note_spec :
    (∀ s cn did fr l dv b', s.current_note = some cn → cn < s.doc.length →
      s.duration = some did → did < s.doc.length → l * fr.1 ≠ 0 →
      tuplet_note s fr l none dv = .ok b' →
      textOf b'.doc did = some (some (toString (dv * 4 * fr.2 / (l * fr.1)))) ∧
      ∃ tm, childrenOf b'.doc cn = (childrenOf s.doc cn).map (fun cs => cs ++ [tm]) ∧
        tagOf b'.doc tm = some "time-modification" ∧
        ∃ an nn, childrenOf b'.doc tm = some [an, nn] ∧
          tagOf b'.doc an = some "actual-notes" ∧
          textOf b'.doc an = some (some (toString fr.1)) ∧
          tagOf b'.doc nn = some "normal-notes" ∧
          textOf b'.doc nn = some (some (toString fr.2))) ∧
    (∀ s cn did fr l dv t b', s.current_note = some cn → cn < s.doc.length →
      s.duration = some did → did < s.doc.length → l * fr.1 ≠ 0 → t ≠ "" →
      tuplet_note s fr l (some t) dv = .ok b' →
      textOf b'.doc did = some (some (toString (dv * 4 * fr.2 / (l * fr.1)))) ∧
      ∃ tm no tu, childrenOf b'.doc cn
          = (childrenOf s.doc cn).map (fun cs => cs ++ [tm, no]) ∧
        tagOf b'.doc tm = some "time-modification" ∧
        (∃ an nn, childrenOf b'.doc tm = some [an, nn] ∧
          tagOf b'.doc an = some "actual-notes" ∧
          textOf b'.doc an = some (some (toString fr.1)) ∧
          tagOf b'.doc nn = some "normal-notes" ∧
          textOf b'.doc nn = some (some (toString fr.2))) ∧
        tagOf b'.doc no = some "notations" ∧
        childrenOf b'.doc no = some [tu] ∧
        tagOf b'.doc tu = some "tuplet" ∧
        attrOf b'.doc tu "type" = some t) ∧
    (∃ b', tuplet_note exN (3, 2) 8 (some "start") 4 = .ok b' ∧
      textOf b'.doc 14 = some (some "1")) := by
  refine ⟨?_, ?_, ⟨_, rfl, rfl⟩⟩
  · intro s cn did fr l dv b' hn hcn hd hdid hb H
    obtain ⟨⟨_, _, _, htxt, hch, htm, hchtm, htagan, htxtan, htagnn, htxtnn⟩,
        _, _, _, _⟩ := tuplet_note_shape_none s cn did fr l dv b' hn hcn hd hdid hb H
    exact ⟨htxt, _, hch, htm, _, _, hchtm, htagan, htxtan, htagnn, htxtnn⟩
  · intro s cn did fr l dv t b' hn hcn hd hdid hb ht H
    obtain ⟨⟨_, _, _, htxt, hch, htm, hchtm, htagan, htxtan, htagnn, htxtnn,
        htagno, hchno, htagtu, hattrtu⟩, _, _, _, _⟩ :=
      tuplet_note_shape_type s cn did fr l dv t b' hn hcn hd hdid hb ht H
    exact ⟨htxt, _, _, _, hch, htm, ⟨_, _, hchtm, htagan, htxtan, htagnn, htxtnn⟩,
      htagno, hchno, htagtu, hattrtu⟩

/-- C5: `new_bar_attr` appends an `attributes` element to the current
measure whose children appear in the fixed order divisions, key, time,
clef, each present exactly when its argument is (divisions truthy, key
non-negative, time and clef non-null), and an absent argument is silently
omitted; with only a clef the attributes element holds a single `clef`
child. -/
theorem new_bar_attr_spec :
    (∀ s cb clef mustime key mode divs, s.current_bar = some cb → cb < s.doc.length →
      ∃ b', new_bar_attr s clef mustime key mode divs = .ok b' ∧
        ∃ ba cs, b'.bar_attr = some ba ∧ tagOf b'.doc ba = some "attributes" ∧
          childrenOf b'.doc cb = (childrenOf s.doc cb).map (fun l => l ++ [ba]) ∧
          childrenOf b'.doc ba = some cs ∧
          cs.map (fun c => tagOf b'.doc c)
            = ((if divs ≠ 0 then [some "divisions"] else []) ++
               (if key ≥ 0 then [some "key"] else []) ++
               (if mustime.isSome then [some "time"] else []) ++
               (if clef.isSome then [some "clef"] else []))) ∧
    (∃ b', new_bar_attr exM (some ("G", 2)) none (-1) "major" 0 = .ok b' ∧
      ∃ ba cs, b'.bar_attr = some ba ∧ childrenOf b'.doc ba = some cs ∧
        cs.map (fun c => tagOf b'.doc c) = [some "clef"]) := by
  refine ⟨?_, ⟨_, rfl, 10, [11], rfl, rfl, rfl⟩⟩
  intro s cb clef mustime key mode divs h hcb
  have e0 : cb ≠ s.doc.length := by omega
  have e1 : cb ≠ s.doc.length + 1 := by omega
  have e2 : cb ≠ s.doc.length + 2 := by omega
  have e3 : cb ≠ s.doc.length + 3 := by omega
  have e4 : cb ≠ s.doc.length + 4 := by omega
  have e5 : cb ≠ s.doc.length + 5 := by omega
  have e6 : cb ≠ s.doc.length + 6 := by omega
  have e7 : cb ≠ s.doc.length + 7 := by omega
  have e8 : cb ≠ s.doc.length + 8 := by omega
  have e9 : cb ≠ s.doc.length + 9 := by omega
  have e10 : cb ≠ s.doc.length + 10 := by omega
  have g1 : cb < s.doc.length + 1 := by omega
  by_cases hdv : divs = 0 <;> by_cases hk : key ≥ 0 <;>
    rcases mustime with _ | ⟨bt, bty⟩ <;> rcases clef with _ | ⟨sg, ln⟩ <;>
    simp [new_bar_attr, create_bar_attr, add_divisions, add_key, add_time, add_clef,
      getAttr, h, hdv, hk, bind, Except.bind, pure, Except.pure,
      tagOf_subElement_ne, textOf_subElement_ne, childrenOf_subElement_ne,
      attrOf_subElement_ne, tagOf_subElement_self, textOf_subElement_self,
      childrenOf_subElement_parent, childrenOf_subElement_self,
      textOf_setText_self, textOf_setText_ne, add_assoc_fold,
      hcb, e0, e1, e2, e3, e4, e5, e6, e7, e8, e9, e10, g1,
      Ne.symm e0, Ne.symm e1, Ne.symm e2, Ne.symm e3, Ne.symm e4, Ne.symm e5]

/-- A `new_note` call on a state whose bar cursor is set and with a non-zero
note length always succeeds. -/
theorem new_note_ok (s : create_musicXML) (cb : Nat) (p : String × Int × Int)
    (l : Nat) (t : String) (dv : Nat) (h : s.current_bar = some cb) (hl : l ≠ 0) :
    ∃ b', new_note s p l t dv = .ok b' := by
  by_cases ha : p.2.1 = 0 <;>
    simp [new_note, create_note, add_pitch, add_div_duration, add_duration_type,
      add_accidental, getAttr, h, hl, ha, bind, Except.bind, pure, Except.pure]

/-- C10: `create_part` does not reset the measure cursor: after
part--measure--note, creating a second part and then calling `new_note`
with no `create_measure` in between succeeds, the second note lands in
the first part's (only) measure, and the freshly created second part
stays empty. -/
theorem create_part_keeps_bar_spec :
    ∀ n1 step1 alt1 oct1 l1 t1 d1 n2 p2 l2 t2 d2 s2 s3,
      l1 ≠ 0 → l2 ≠ 0 →
      create_measure (create_part init n1) = .ok s2 →
      new_note s2 (step1, alt1, oct1) l1 t1 d1 = .ok s3 →
      (create_part s3 n2).current_bar = s3.current_bar ∧
      s3.current_bar = some 9 ∧
      (create_part s3 n2).current_part = some (s3.doc.length + 2) ∧
      ∃ b', new_note (create_part s3 n2) p2 l2 t2 d2 = .ok b' ∧
        b'.current_note = some (s3.doc.length + 3) ∧
        tagOf b'.doc (s3.doc.length + 3) = some "note" ∧
        tagOf b'.doc 8 = some "part" ∧
        childrenOf b'.doc 8 = some [9] ∧
        tagOf b'.doc 9 = some "measure" ∧
        childrenOf b'.doc 9 = some [10, s3.doc.length + 3] ∧
        tagOf b'.doc (s3.doc.length + 2) = some "part" ∧
        childrenOf b'.doc (s3.doc.length + 2) = some [] := by
  intro n1 step1 alt1 oct1 l1 t1 d1 n2 p2 l2 t2 d2 s2 s3 hl1 hl2 H2 H3
  -- facts about s1 = create_part init n1 (all definitional)
  have h1cp : (create_part init n1).current_part = some 8 := rfl
  have h1nr : (create_part init n1).bar_nr = some 1 := rfl
  have h1len : (create_part init n1).doc.length = 9 := rfl
  obtain ⟨⟨m1, m2, m3, m4, m5, m6, m7, m8, m9, m10, m11, m12, m13⟩, f1, f2, f3, f4⟩ :=
    create_measure_shape (create_part init n1) 8 1 s2 h1cp h1nr (by omega) H2
  rw [h1len] at m1 m9 m10 m12 m13
  have h2ch9 : childrenOf s2.doc 9 = some [] := m12
  have h2tag9 : tagOf s2.doc 9 = some "measure" := m10
  have h2ch8 : childrenOf s2.doc 8 = some [9] := m13.trans (by rfl)
  have h2tag8 : tagOf s2.doc 8 = some "part" := (f1 8 (by omega)).trans (by rfl)
  have h2len : s2.doc.length = 10 := m9
  have h2pl : s2.partlist = 5 := m6.trans (by rfl)
  have h2rt : s2.root = 0 := m5.trans (by rfl)
  -- facts about s3 (split on the first note's alteration)
  have KEY : s3.current_bar = some 9 ∧ 16 ≤ s3.doc.length ∧
      childrenOf s3.doc 9 = some [10] ∧ childrenOf s3.doc 8 = some [9] ∧
      tagOf s3.doc 8 = some "part" ∧ tagOf s3.doc 9 = some "measure" ∧
      s3.partlist = 5 ∧ s3.root = 0 ∧ s3.current_part = some 8 := by
    by_cases ha : alt1 = 0
    · subst ha
      obtain ⟨⟨_, _, c3, c4, _, _, c7, c8, c9, _, _, _, _, _, _, _, _, _, _, _, _, c22⟩,
          g1, _, _, g4⟩ := new_note_shape_zero s2 9 step1 oct1 l1 t1 d1 s3 m1 (by omega) hl1 H3
      rw [h2len] at c9 c22
      refine ⟨c3.trans m1, by omega, ?_, ?_, ?_, ?_, ?_, ?_, ?_⟩
      · rw [c22, h2ch9]
        rfl
      · rw [g4 8 (by omega) (by omega), h2ch8]
      · rw [g1 8 (by omega), h2tag8]
      · rw [g1 9 (by omega), h2tag9]
      · rw [c8, h2pl]
      · rw [c7, h2rt]
      · rw [c4, m3, h1cp]
    · obtain ⟨⟨_, _, c3, c4, _, _, c7, c8, c9, _, _, _, _, _, _, _, _, _, _, _, _, _, _, _,
          _, c26⟩, g1, _, _, g4⟩ :=
        new_note_shape_alt s2 9 step1 alt1 oct1 l1 t1 d1 s3 m1 (by omega) hl1 ha H3
      rw [h2len] at c9 c26
      refine ⟨c3.trans m1, by omega, ?_, ?_, ?_, ?_, ?_, ?_, ?_⟩
      · rw [c26, h2ch9]
        rfl
      · rw [g4 8 (by omega) (by omega), h2ch8]
      · rw [g1 8 (by omega), h2tag8]
      · rw [g1 9 (by omega), h2tag9]
      · rw [c8, h2pl]
      · rw [c7, h2rt]
      · rw [c4, m3, h1cp]
  obtain ⟨k1, k2, k3, k4, k5, k6, k7, k8, k9⟩ := KEY
  -- s4 = create_part s3 n2
  obtain ⟨⟨q1, q2, q3, q4, q5, q6, q7, q8, q9, q10, q11, q12, q13, q14, q15, q16, q17,
      q18, q19⟩, r1, r2, r3, r4⟩ :=
    create_part_shape s3 n2 (create_part s3 n2) (by rw [k7]; omega) (by rw [k8]; omega)
      (by rw [k7, k8]; omega) rfl
  have hs4bar : (create_part s3 n2).current_bar = some 9 := q4.trans k1
  have hs4len : (create_part s3 n2).doc.length = s3.doc.length + 3 := q9
  refine ⟨q4, k1, q2, ?_⟩
  obtain ⟨b', Hb⟩ := new_note_ok (create_part s3 n2) 9 p2 l2 t2 d2 hs4bar hl2
  refine ⟨b', Hb, ?_⟩
  obtain ⟨st2, a2, o2⟩ := p2
  have hcb4 : (9 : Nat) < (create_part s3 n2).doc.length := by rw [hs4len]; omega
  by_cases ha2 : a2 = 0
  · subst ha2
    obtain ⟨⟨c1, _, _, _, _, _, _, _, _, c10, _, _, _, _, _, _, _, _, _, _, _, c22⟩,
        g1, _, _, g4⟩ :=
      new_note_shape_zero (create_part s3 n2) 9 st2 o2 l2 t2 d2 b' hs4bar hcb4 hl2 Hb
    rw [hs4len] at c1 c10 c22
    refine ⟨c1, c10, ?_, ?_, ?_, ?_, ?_, ?_⟩
    · rw [g1 8 (by rw [hs4len]; omega), r1 8 (by omega), k5]
    · rw [g4 8 (by rw [hs4len]; omega) (by omega),
        r4 8 (by omega) (by rw [k7]; omega) (by rw [k8]; omega), k4]
    · rw [g1 9 (by rw [hs4len]; omega), r1 9 (by omega), k6]
    · rw [c22, r4 9 (by omega) (by rw [k7]; omega) (by rw [k8]; omega), k3]
      rfl
    · rw [g1 (s3.doc.length + 2) (by rw [hs4len]; omega), q15]
    · rw [g4 (s3.doc.length + 2) (by rw [hs4len]; omega) (by omega), q17]
  · obtain ⟨⟨c1, _, _, _, _, _, _, _, _, c10, _, _, _, _, _, _, _, _, _, _, _, _, _, _,
        _, c26⟩, g1, _, _, g4⟩ :=
      new_note_shape_alt (create_part s3 n2) 9 st2 a2 o2 l2 t2 d2 b' hs4bar hcb4 hl2 ha2 Hb
    rw [hs4len] at c1 c10 c26
    refine ⟨c1, c10, ?_, ?_, ?_, ?_, ?_, ?_⟩
    · rw [g1 8 (by rw [hs4len]; omega), r1 8 (by omega), k5]
    · rw [g4 8 (by rw [hs4len]; omega) (by omega),
        r4 8 (by omega) (by rw [k7]; omega) (by rw [k8]; omega), k4]
    · rw [g1 9 (by rw [hs4len]; omega), r1 9 (by omega), k6]
    · rw [c26, r4 9 (by omega) (by rw [k7]; omega) (by rw [k8]; omega), k3]
      rfl
    · rw [g1 (s3.doc.length + 2) (by rw [hs4len]; omega), q15]
    · rw [g4 (s3.doc.length + 2) (by rw [hs4len]; omega) (by omega), q17]

/-- Witness for C10: the concrete run part, measure, quarter note, second
part, second note with no intervening measure. -/
theorem create_part_keeps_bar_witness :
    (create_part exC10 "B").current_bar = exC10.current_bar ∧
    exC10.current_bar = some 9 ∧
    (create_part exC10 "B").current_part = some 18 ∧
    ∃ b', new_note (create_part exC10 "B") ("D", 0, 4) 4 "quarter" 4 = .ok b' ∧
      b'.current_note = some 19 ∧
      tagOf b'.doc 19 = some "note" ∧
      tagOf b'.doc 8 = some "part" ∧
      childrenOf b'.doc 8 = some [9] ∧
      tagOf b'.doc 9 = some "measure" ∧
      childrenOf b'.doc 9 = some [10, 19] ∧
      tagOf b'.doc 18 = some "part" ∧
      childrenOf b'.doc 18 = some [] :=
  create_part_keeps_bar_spec "Piano" "C" 0 4 4 "quarter" 4 "B" ("D", 0, 4) 4 "quarter" 4
    exM exC10 (by decide) (by decide) rfl rfl

/-- Invariant of a pure `create_part` sequence from `init`: fixed root and
part-list ids, the part counter, and the score-part and part children
with ids "P1".."Pk". -/
theorem addParts_inv : ∀ ns : List String,
    (addParts init ns).root = 0 ∧
    (addParts init ns).partlist = 5 ∧
    (addParts init ns).part_count = ns.length + 1 ∧
    6 ≤ (addParts init ns).doc.length ∧
    tagOf (addParts init ns).doc 1 = some "identification" ∧
    tagOf (addParts init ns).doc 5 = some "part-list" ∧
    ∃ scs pts,
      childrenOf (addParts init ns).doc 5 = some scs ∧
      childrenOf (addParts init ns).doc 0 = some ([1, 5] ++ pts) ∧
      (∀ c ∈ scs, c < (addParts init ns).doc.length) ∧
      (∀ c ∈ pts, c < (addParts init ns).doc.length ∧
        tagOf (addParts init ns).doc c = some "part") ∧
      scs.map (fun c => attrOf (addParts init ns).doc c "id")
        = (List.range ns.length).map (fun i => some ("P" ++ toString (i + 1))) ∧
      pts.map (fun c => attrOf (addParts init ns).doc c "id")
        = (List.range ns.length).map (fun i => some ("P" ++ toString (i + 1))) := by
  intro ns
  induction ns using List.reverseRecOn with
  | nil =>
      exact ⟨rfl, rfl, rfl, by decide, rfl, rfl, [], [], rfl, rfl,
        by simp, by simp, by simp, by simp⟩
  | append_singleton l a ih =>
      obtain ⟨hrt, hpl, hpc, hlen, htag1, htag5, scs, pts, hch5, hch0, hbs, hbp, hms, hmp⟩ := ih
      have hstep : addParts init (l ++ [a]) = create_part (addParts init l) a := by
        simp [addParts]
      obtain ⟨⟨q1, q2, q3, q4, q5, q6, q7, q8, q9, q10, q11, q12, q13, q14, q15, q16, q17,
          q18, q19⟩, r1, r2, r3, r4⟩ :=
        create_part_shape (addParts init l) a (addParts init (l ++ [a]))
          (by rw [hpl]; omega) (by rw [hrt]; omega) (by rw [hrt, hpl]; omega) hstep.symm
      rw [hpl] at q18
      rw [hrt] at q19
      refine ⟨q7.trans hrt, q8.trans hpl, ?_, by rw [q9]; omega,
        (r1 1 (by omega)).trans htag1, (r1 5 (by omega)).trans htag5,
        scs ++ [(addParts init l).doc.length],
        pts ++ [(addParts init l).doc.length + 2], ?_, ?_, ?_, ?_, ?_, ?_⟩
      · rw [q1, hpc]
        simp
      · rw [q18, hch5]
        rfl
      · rw [q19, hch0]
        simp
      · intro c hc
        rw [q9]
        rcases List.mem_append.1 hc with h | h
        · have := hbs c h
          omega
        · simp at h
          omega
      · intro c hc
        rw [q9]
        rcases List.mem_append.1 hc with h | h
        · obtain ⟨h1, h2⟩ := hbp c h
          exact ⟨by omega, (r1 c (by omega)).trans h2⟩
        · simp at h
          subst h
          exact ⟨by omega, q15⟩
      · rw [List.map_append]
        have hold : (scs.map fun c => attrOf (addParts init (l ++ [a])).doc c "id")
            = scs.map fun c => attrOf (addParts init l).doc c "id" :=
          List.map_congr_left (fun c hc => r3 c "id" (hbs c hc))
        rw [hold, hms, hpc] at *
        simp [List.range_succ, q11, hpc]
      · rw [List.map_append]
        have hold : (pts.map fun c => attrOf (addParts init (l ++ [a])).doc c "id")
            = pts.map fun c => attrOf (addParts init l).doc c "id" :=
          List.map_congr_left (fun c hc => r3 c "id" (hbp c hc).1)
        rw [hold, hmp]
        simp [List.range_succ, q16, hpc]

/-- C3: part ids are "P1", "P2", ... in call order, independent of the
supplied names (duplicates included): after any `create_part` sequence
the score-part ids and the part-element ids both read "P1".."Pn", the
counter is n+1, and one more call appends a score-part and a fresh empty
part element carrying id "P(n+1)" and makes that part current. -/
theorem create_part_ids_spec :
    ∀ (ns : List String) (name : String),
      scorePartIds (addParts init ns)
        = (List.range ns.length).map (fun i => some ("P" ++ toString (i + 1))) ∧
      rootPartIds (addParts init ns)
        = (List.range ns.length).map (fun i => some ("P" ++ toString (i + 1))) ∧
      (addParts init ns).part_count = ns.length + 1 ∧
      scorePartIds (addParts init (ns ++ [name]))
        = scorePartIds (addParts init ns) ++ [some ("P" ++ toString (ns.length + 1))] ∧
      rootPartIds (addParts init (ns ++ [name]))
        = rootPartIds (addParts init ns) ++ [some ("P" ++ toString (ns.length + 1))] ∧
      ∃ cp, (addParts init (ns ++ [name])).current_part = some cp ∧
        tagOf (addParts init (ns ++ [name])).doc cp = some "part" ∧
        childrenOf (addParts init (ns ++ [name])).doc cp = some [] ∧
        attrOf (addParts init (ns ++ [name])).doc cp "id"
          = some ("P" ++ toString (ns.length + 1)) := by
  have hfil : ∀ (s : create_musicXML) (pts : List Nat),
      s.root = 0 → s.partlist = 5 →
      childrenOf s.doc 0 = some ([1, 5] ++ pts) →
      tagOf s.doc 1 = some "identification" → tagOf s.doc 5 = some "part-list" →
      (∀ c ∈ pts, tagOf s.doc c = some "part") →
      rootPartIds s = pts.map (fun c => attrOf s.doc c "id") := by
    intro s pts hr hl h0 h1 h5 hp
    rw [rootPartIds, hr, h0]
    have e15 : List.filter (fun c => tagOf s.doc c == some "part") [1, 5] = [] := by
      simp [List.filter, h1, h5]
    have ep : List.filter (fun c => tagOf s.doc c == some "part") pts = pts :=
      List.filter_eq_self.mpr (fun c hc => by simp [hp c hc])
    simp only [Option.getD_some, List.filter_append, e15, ep, List.nil_append]
  intro ns name
  obtain ⟨hrt, hpl, hpc, hlen, htag1, htag5, scs, pts, hch5, hch0, hbs, hbp, hms, hmp⟩ :=
    addParts_inv ns
  obtain ⟨hrt', hpl', hpc', hlen', htag1', htag5', scs', pts', hch5', hch0', hbs', hbp',
      hms', hmp'⟩ := addParts_inv (ns ++ [name])
  have hs : scorePartIds (addParts init ns)
      = (List.range ns.length).map (fun i => some ("P" ++ toString (i + 1))) := by
    rw [scorePartIds, hpl, hch5]
    exact hms
  have hs' : scorePartIds (addParts init (ns ++ [name]))
      = (List.range (ns.length + 1)).map (fun i => some ("P" ++ toString (i + 1))) := by
    rw [scorePartIds, hpl', hch5']
    simpa using hms'
  have hrn : rootPartIds (addParts init ns)
      = (List.range ns.length).map (fun i => some ("P" ++ toString (i + 1))) := by
    rw [hfil _ pts hrt hpl hch0 htag1 htag5 (fun c hc => (hbp c hc).2)]
    exact hmp
  have hrn' : rootPartIds (addParts init (ns ++ [name]))
      = (List.range (ns.length + 1)).map (fun i => some ("P" ++ toString (i + 1))) := by
    rw [hfil _ pts' hrt' hpl' hch0' htag1' htag5' (fun c hc => (hbp' c hc).2)]
    simpa using hmp'
  have hstep : addParts init (ns ++ [name]) = create_part (addParts init ns) name := by
    simp [addParts]
  obtain ⟨⟨q1, q2, q3, q4, q5, q6, q7, q8, q9, q10, q11, q12, q13, q14, q15, q16, q17,
      q18, q19⟩, r1, r2, r3, r4⟩ :=
    create_part_shape (addParts init ns) name (addParts init (ns ++ [name]))
      (by rw [hpl]; omega) (by rw [hrt]; omega) (by rw [hrt, hpl]; omega) hstep.symm
  refine ⟨hs, hrn, hpc, ?_, ?_, _, q2, q15, q17, ?_⟩
  · rw [hs', hs, List.range_succ]
    simp
  · rw [hrn', hrn, List.range_succ]
    simp
  · rw [q16, hpc]

theorem C4Inv_init : C4Inv init := by
  refine ⟨rfl, rfl, by decide, rfl, rfl, [], rfl, by simp, ?_⟩
  exact rfl

theorem C4Inv_step (s s' : create_musicXML) (c : Cmd) (hI : C4Inv s)
    (H : runCmd s c = .ok s') : C4Inv s' := by
  obtain ⟨hrt, hpl, hlen, htag1, htag5, pts, hch0, hpts, hcur⟩ := hI
  cases c with
  | part name =>
      have hs' : create_part s name = s' := by
        simpa [runCmd] using H
      obtain ⟨⟨q1, q2, q3, q4, q5, q6, q7, q8, q9, q10, q11, q12, q13, q14, q15, q16, q17,
          q18, q19⟩, r1, r2, r3, r4⟩ :=
        create_part_shape s name s' (by rw [hpl]; omega) (by rw [hrt]; omega)
          (by rw [hrt, hpl]; omega) hs'
      rw [hrt] at q19
      refine ⟨q7.trans hrt, q8.trans hpl, by rw [q9]; omega,
        (r1 1 (by omega)).trans htag1, (r1 5 (by omega)).trans htag5,
        pts ++ [s.doc.length + 2], ?_, ?_, ?_⟩
      · rw [q19, hch0]
        simp
      · intro p hp
        rcases List.mem_append.1 hp with h | h
        · obtain ⟨h6, hplt, htagp, ms, hms, hmb, hnum⟩ := hpts p h
          refine ⟨h6, by omega, (r1 p (by omega)).trans htagp, ms, ?_, ?_, ?_⟩
          · rw [r4 p (by omega) (by rw [hpl]; omega) (by rw [hrt]; omega)]
            exact hms
          · intro m hm
            have := hmb m hm
            omega
          · have : numbersOf s'.doc ms = numbersOf s.doc ms :=
              List.map_congr_left (fun m hm => r3 m "number" (hmb m hm))
            rw [this]
            exact hnum
        · simp at h
          subst h
          exact ⟨by omega, by rw [q9]; omega, q15, [], q17, by simp, by simp [numbersOf]⟩
      · rw [q2]
        exact ⟨by omega, by rw [q9]; omega, [], q17, by simp, q3⟩
  | measure =>
      rcases hcp : s.current_part with _ | cp
      · rw [hcp] at hcur
        simp [runCmd, create_measure, getAttr, hcp, bind, Except.bind] at H
      · rw [hcp] at hcur
        obtain ⟨h6cp, hcplt, msC, hmsC, hmbC, hnr⟩ := hcur
        obtain ⟨⟨m1, m2, m3, m4, m5, m6, m7, m8, m9, m10, m11, m12, m13⟩, f1, f2, f3, f4⟩ :=
          create_measure_shape s cp (msC.length + 1) s' hcp hnr hcplt (by simpa [runCmd] using H)
        refine ⟨m5.trans hrt, m6.trans hpl, by rw [m9]; omega,
          (f1 1 (by omega)).trans htag1, (f1 5 (by omega)).trans htag5,
          pts, ?_, ?_, ?_⟩
        · rw [f4 0 (by omega) (by omega)]
          exact hch0
        · intro p hp
          obtain ⟨h6, hplt, htagp, ms, hms, hmb, hnum⟩ := hpts p hp
          by_cases hpc : p = cp
          · subst hpc
            have hmseq : ms = msC := Option.some.inj (hms.symm.trans hmsC)
            subst hmseq
            refine ⟨h6, by omega, (f1 p (by omega)).trans htagp,
              ms ++ [s.doc.length], ?_, ?_, ?_⟩
            · rw [m13, hms]
              rfl
            · intro m hm
              rcases List.mem_append.1 hm with h | h
              · have := hmb m h
                omega
              · simp at h
                omega
            · rw [numbersOf, List.map_append]
              have hold : List.map (fun m => attrOf s'.doc m "number") ms
                  = List.map (fun m => attrOf s.doc m "number") ms :=
                List.map_congr_left (fun m hm => f3 m "number" (hmb m hm))
              rw [hold]
              have : List.map (fun m => attrOf s'.doc m "number") [s.doc.length]
                  = [some (toString (ms.length + 1))] := by
                simp [m11]
              rw [this]
              rw [numbersOf] at hnum
              rw [hnum]
              simp [List.range_succ]
          · refine ⟨h6, by omega, (f1 p (by omega)).trans htagp, ms, ?_, ?_, ?_⟩
            · rw [f4 p (by omega) hpc]
              exact hms
            · intro m hm
              have := hmb m hm
              omega
            · have : numbersOf s'.doc ms = numbersOf s.doc ms :=
                List.map_congr_left (fun m hm => f3 m "number" (hmb m hm))
              rw [this]
              exact hnum
        · rw [m3, hcp]
          refine ⟨h6cp, by omega, msC ++ [s.doc.length], ?_, ?_, ?_⟩
          · rw [m13, hmsC]
            rfl
          · intro m hm
            rcases List.mem_append.1 hm with h | h
            · have := hmbC m h
              omega
            · simp at h
              omega
          · rw [m2]
            simp

theorem runCmds_inv : ∀ (cmds : List Cmd) (s b' : create_musicXML), C4Inv s →
    runCmds s cmds = .ok b' → C4Inv b' := by
  intro cmds
  induction cmds with
  | nil =>
      intro s b' hI H
      simp [runCmds, pure, Except.pure] at H
      subst H
      exact hI
  | cons c cs ih =>
      intro s b' hI H
      rw [runCmds] at H
      rcases hc : runCmd s c with e | x
      · rw [hc] at H
        simp [bind, Except.bind] at H
      · rw [hc] at H
        simp only [bind, Except.bind] at H
        exact ih x b' (C4Inv_step s x c hI hc) H

/-- C4: over any interleaving of `create_part` and `create_measure` calls
from the fresh builder, every part element's measures carry number
attributes "1", "2", "3", ... in creation order, the numbering restarting
at 1 with each new part. -/
theorem measure_numbering_spec (cmds : List Cmd) (b' : create_musicXML)
    (H : runCmds init cmds = .ok b') :
    ∀ p, p ∈ (childrenOf b'.doc b'.root).getD [] → tagOf b'.doc p = some "part" →
      ∃ ms, childrenOf b'.doc p = some ms ∧
        numbersOf b'.doc ms
          = (List.range ms.length).map (fun i => some (toString (i + 1))) := by
  obtain ⟨hrt, hpl, hlen, htag1, htag5, pts, hch0, hpts, hcur⟩ :=
    runCmds_inv cmds init b' C4Inv_init H
  intro p hp htagp
  rw [hrt, hch0] at hp
  simp at hp
  rcases hp with rfl | rfl | hp
  · rw [htag1] at htagp
    simp at htagp
  · rw [htag5] at htagp
    simp at htagp
  · obtain ⟨_, _, _, ms, hms, _, hnum⟩ := hpts p hp
    exact ⟨ms, hms, hnum⟩

/-- Witness for C4: after part "A", two measures, part "B", one measure,
the first part element (id 8) holds measures numbered "1", "2". -/
theorem measure_numbering_witness :
    ∃ ms, childrenOf exC4.doc 8 = some ms ∧
      numbersOf exC4.doc ms
        = (List.range ms.length).map (fun i => some (toString (i + 1))) :=
  measure_numbering_spec [Cmd.part "A", Cmd.measure, Cmd.measure, Cmd.part "B", Cmd.measure]
    exC4 rfl 8 (by decide) (by decide)
